import Mathlib

/-!
Verification development for the `supabase_backup_py` repository.

The repository is a Python incremental backup/restore tool for a remote
tabular store.  This file gives a shallow embedding of its core pure logic:

* `calculate_table_hash` / `compare_table_data` (change detection,
  `src/backup_supabase.py` lines 116-174, identical copy in
  `src/supabase_backup.py` lines 169-206);
* `fetch_table_data` (paginated fetch with internal error swallowing,
  `src/backup_supabase.py` lines 90-114);
* the per-table processing loop of `create_backup`
  (`src/backup_supabase.py` lines 218-288);
* `validate_backup_data` (`src/backup_supabase_safe.py` lines 118-147,
  identical copy in `src/supabase_backup.py` lines 243-269);
* the incremental-merge step, task building, batching and write-back
  escalation of `restore_backup` / `restore_table_batch`
  (`src/supabase_backup.py` lines 764-1097);
* `cleanup_old_backups` (`src/supabase_backup.py` lines 618-640).

Conventions of the embedding:

* Rows are association lists of column name to a small JSON-ish value type
  (`Value`), in Python dict insertion order.
* Python dict truthiness and `str.__contains__` are modelled explicitly.
* MD5 digests: the Python code feeds `json.dumps(sorted_rows,
  sort_keys=True, default=str)` (or the literal bytes `b"empty"`) to
  `hashlib.md5`.  `json.dumps` with sorted keys is injective on this value
  domain, so the model represents a digest by the canonical structure that
  is serialized and hashed: the key-sorted rows in their sorted order, with
  the `b"empty"` input kept as a distinguished tag.  Equality of model
  fingerprints then coincides with equality of the real digests up to MD5
  collisions, which the tool explicitly tolerates for change detection.
-/

namespace SupabaseBackup

/-- A JSON-ish scalar value stored in a row: Python int, str or None. -/
inductive Value where
  | vint (i : Int)
  | vstr (s : String)
  | vnull
deriving DecidableEq

/-- A row is a Python dict: an association list of column name to value,
in insertion order, without duplicate keys. -/
abbrev Row := List (String × Value)

/-- Python `row.get(k)`: the value at key `k`, `None`-as-absent folded into
`Option`. -/
def pyGet (r : Row) (k : String) : Option Value :=
  r.lookup k

/-- Python truthiness of a value: `None`, `0` and `""` are falsy. -/
def truthyV : Value → Bool
  | .vint i => i != 0
  | .vstr s => s != ""
  | .vnull => false

/-- Python truthiness of `row.get(k)`: absent keys give `None`, falsy. -/
def truthyO : Option Value → Bool
  | none => false
  | some v => truthyV v

/-- A single-quote character, built by code point to keep string literals
plain. -/
def sq : String := String.singleton (Char.ofNat 39)

/-- Lexicographic comparison of character sequences by code point, the
order Python uses for `str <= str`. -/
def charsLe : List Char → List Char → Bool
  | [], _ => true
  | _ :: _, [] => false
  | a :: as, b :: bs =>
    if a.toNat < b.toNat then true
    else if b.toNat < a.toNat then false
    else charsLe as bs

/-- Python `a <= b` on strings. -/
def strLeB (a b : String) : Bool := charsLe a.toList b.toList

/-- Python `repr` of a value, as used inside `str(dict)`. -/
def pyReprV : Value → String
  | .vint i => toString i
  | .vstr s => sq ++ s ++ sq
  | .vnull => "None"

/-- Python `str(x)` for a dict row `x`: `\x7b'k': v, ...\x7d` in insertion
order. -/
def pyStrRow (r : Row) : String :=
  "\x7b" ++
    String.intercalate ", "
      (r.map (fun kv => sq ++ kv.1 ++ sq ++ ": " ++ pyReprV kv.2)) ++
  "\x7d"

/-- The sort key `lambda x: x.get(\x27id\x27, str(x))` of
`calculate_table_hash`: the raw id value when the key is present (even if
`None`), else the dict repr string. -/
def sortKey (r : Row) : Value :=
  match pyGet r "id" with
  | some v => v
  | none => .vstr (pyStrRow r)

/-- Rank used to compare values of different constructors.  Python raises
`TypeError` there; the total order below is only consulted by the model on
homogeneous key lists (see `keysComparable`), so the cross-constructor
branch is arbitrary and never observable. -/
def valueRank : Value → Nat
  | .vnull => 0
  | .vint _ => 1
  | .vstr _ => 2

/-- Total order on values: Python `<=` on two ints or two strs, rank order
across constructors (never consulted on the sorted inputs, see
`valueRank`). -/
def valueLeB : Value → Value → Bool
  | .vint a, .vint b => a ≤ b
  | .vstr a, .vstr b => strLeB a b
  | a, b => valueRank a ≤ valueRank b

/-- Row comparison by sort key, the relation `sorted` orders by. -/
def rowLe (a b : Row) : Prop := valueLeB (sortKey a) (sortKey b) = true

instance : DecidableRel rowLe := fun a b =>
  decidable_of_iff (valueLeB (sortKey a) (sortKey b) = true) Iff.rfl

/-- Whether a row's sort key is a Python int. -/
def keyIsInt (r : Row) : Bool :=
  match sortKey r with
  | .vint _ => true
  | _ => false

/-- Whether a row's sort key is a Python str. -/
def keyIsStr (r : Row) : Bool :=
  match sortKey r with
  | .vstr _ => true
  | _ => false

/-- `True` exactly when Python's `sorted` call performs no comparison that
raises `TypeError`: lists of length at most one are never compared, and
otherwise every comparison is int-with-int or str-with-str, which in a
sort of the whole list means all keys share one of those two types. -/
def keysComparable (data : List Row) : Bool :=
  data.length ≤ 1 || data.all keyIsInt || data.all keyIsStr

/-- `sorted(data, key=lambda x: x.get(\x27id\x27, str(x)))` wrapped in
`try/except`: a `TypeError` from comparing mixed-type keys makes the bare
`except` fall back to the unsorted input. -/
def pySortRows (data : List Row) : List Row :=
  if keysComparable data then List.insertionSort rowLe data else data

/-- Order of row fields by column name, used by the key-sorting of
`json.dumps(..., sort_keys=True)`. -/
def fieldLe (a b : String × Value) : Prop := strLeB a.1 b.1 = true

instance : DecidableRel fieldLe := fun a b =>
  decidable_of_iff (strLeB a.1 b.1 = true) Iff.rfl

/-- `json.dumps(..., sort_keys=True)` serializes each dict with its keys
sorted; the model keeps the canonical key-sorted association list. -/
def canonRow (r : Row) : Row :=
  List.insertionSort fieldLe r

/-- The MD5 digest of `calculate_table_hash`, represented by the exact
structure whose serialization is hashed (see the file header): the
`b"empty"` tag for falsy input, else the key-canonicalized rows in the
order produced by the (attempted) sort. -/
inductive Fingerprint where
  | emptyTag
  | digest (canon : List Row)
deriving DecidableEq

/-- `calculate_table_hash` (`src/backup_supabase.py` lines 116-129). -/
def calculate_table_hash (data : List Row) : Fingerprint :=
  if data.isEmpty then .emptyTag
  else .digest ((pySortRows data).map canonRow)

/-- The set of truthy `id` values of a row list:
`\x7brow.get(\x27id\x27) for row in data if row.get(\x27id\x27)\x7d`. -/
def idSet (data : List Row) : Finset Value :=
  (data.filterMap (fun r =>
    match pyGet r "id" with
    | some v => if truthyV v then some v else none
    | none => none)).toFinset

/-- Result dict of `compare_table_data`, one constructor per shape of the
returned Python dict. -/
inductive CompareResult where
  | noPrev
  | same (hash : Fingerprint)
  | diff (hash : Fingerprint) (addedCount removedCount currentCount previousCount : Nat)
deriving DecidableEq

/-- `compare_table_data` (`src/backup_supabase.py` lines 149-174). -/
def compare_table_data (current : List Row) (previous : Option (List Row)) :
    CompareResult :=
  match previous with
  | none => .noPrev
  | some prev =>
    let ch := calculate_table_hash current
    let ph := calculate_table_hash prev
    if ch = ph then .same ch
    else
      .diff ch ((idSet current) \ (idSet prev)).card
        ((idSet prev) \ (idSet current)).card current.length prev.length

/-- The `changed` field of a `compare_table_data` result. -/
def changedOf : CompareResult → Bool
  | .same _ => false
  | _ => true

/-- The `added_count` field of a `compare_table_data` result, when present. -/
def addedOf : CompareResult → Option Nat
  | .diff _ a _ _ _ => some a
  | _ => none

/-- One table's state inside a persisted backup: a plain row list, an
`\x7b_unchanged, _reference_backup, _hash\x7d` marker dict, or an
`\x7b_error, _backup_failed\x7d` marker dict. -/
inductive Entry where
  | materialized (rows : List Row)
  | unchanged (ref : String) (h : Fingerprint)
  | failed (err : String)
deriving DecidableEq

/-- The metadata and data of one persisted backup file, restricted to the
fields the embedded code paths read. -/
structure Snapshot where
  timestamp : String
  backupType : String
  previousBackup : Option String
  tables : List String
  data : List (String × Entry)
deriving DecidableEq

/-- The on-disk backup directory: timestamp to parsed snapshot.  `none`
models a missing `supabase_backup_<ts>.json(.gz)` file or one whose load
raises. -/
abbrev SnapStore := String → Option Snapshot

/-- One page response of the remote client inside `fetch_table_data`:
either the rows of `.range(start, start+page_size-1)` or a raised
exception. -/
abbrev PageResp := Except String (List Row)

/-- `fetch_table_data` (`src/backup_supabase.py` lines 90-114) on the
sequence of page responses the client produces: accumulate pages, breaking
out of the loop on a raised exception (the `except` logs and `break`s,
KEEPING the rows fetched so far), on an empty page, or on a short page. -/
def fetch_table_data (pages : List PageResp) (pageSize : Nat) : List Row :=
  match pages with
  | [] => []
  | .error _ :: _ => []
  | .ok rows :: rest =>
    if rows.isEmpty then []
    else if rows.length < pageSize then rows
    else rows ++ fetch_table_data rest pageSize

/-- What happens when `create_backup` processes one table: the client
yields a sequence of page responses consumed by `fetch_table_data`, or an
exception is raised elsewhere in the per-table `try` body (client call
setup, comparison, ...), reaching the `except` of lines 281-288. -/
inductive TableSource where
  | pages (ps : List PageResp)
  | raising (msg : String)

/-- The value of `previous_data` after the reference-resolution block of
`create_backup` (lines 225-250): `None`, a row list, or a marker dict left
in place (a `_backup_failed` dict loaded from the REFERENCED backup is not
filtered there, only `_unchanged` is). -/
inductive PrevData where
  | npd
  | rowsP (rs : List Row)
  | poisoned

/-- Lines 225-250 of `src/backup_supabase.py`: resolve the comparison
baseline from the previous backup, following at most ONE `_unchanged`
reference.  A referenced entry that is itself `_unchanged` becomes `None`
(the comment says "Keep going back if needed" but the code does not); a
referenced `_backup_failed` dict stays as `previous_data` (only the outer
level filters it), poisoning the later id-set comprehension. -/
def resolvePreviousData (store : SnapStore) (prevSnap : Snapshot)
    (table : String) : PrevData :=
  match prevSnap.data.lookup table with
  | none => .npd
  | some (.materialized rows) => .rowsP rows
  | some (.failed _) => .npd
  | some (.unchanged refTs _) =>
    match store refTs with
    | none => .npd
    | some refSnap =>
      match refSnap.data.lookup table with
      | none => .npd
      | some (.materialized rows) => .rowsP rows
      | some (.unchanged _ _) => .npd
      | some (.failed _) => .poisoned

/-- Message of the `AttributeError` raised when the id-set comprehension of
`compare_table_data` iterates a marker dict (its keys are strings, and
`str.get` does not exist); the exact Python text is irrelevant, only that
the per-table `except` stores it. -/
def attributeErrorMsg : String := "AttributeError"

/-- The entry `create_backup` stores for one table (lines 218-288 of
`src/backup_supabase.py`).  A raised exception stores the `_backup_failed`
marker; an unchanged comparison (only possible when a previous backup
exists) stores the `_unchanged` marker referencing the previous backup's
timestamp; otherwise the fetched rows are stored (`row_count > 0` stores
`current_data`, `row_count == 0` stores `[]`, which is the same list). -/
def processTable (store : SnapStore) (prevSnapO : Option Snapshot)
    (forceFull : Bool) (src : TableSource) (table : String) : Entry :=
  match src with
  | .raising msg => .failed msg
  | .pages ps =>
    let current := fetch_table_data ps 1000
    let pd : PrevData :=
      match prevSnapO with
      | none => .npd
      | some prev => if forceFull then .npd else resolvePreviousData store prev table
    match pd with
    | .poisoned => .failed attributeErrorMsg
    | .npd => .materialized current
    | .rowsP rs =>
      let comparison := compare_table_data current (some rs)
      match comparison with
      | .same h =>
        if forceFull then .materialized current
        else
          match prevSnapO with
          | some prev => .unchanged prev.timestamp h
          | none => .materialized current
      | _ => .materialized current

/-- The `data` section assembled by the sequential loop of `create_backup`:
one entry per table, in order.  `get_all_tables` deduplicates, so the
Python dict assignment never overwrites and the list of pairs is the dict. -/
def createBackupData (tables : List String) (src : String → TableSource)
    (store : SnapStore) (prevSnapO : Option Snapshot) (forceFull : Bool) :
    List (String × Entry) :=
  tables.map (fun t => (t, processTable store prevSnapO forceFull (src t) t))

/-- An operation issued against the remote store during restore.  The
vocabulary includes the destructive `deleteRow` a PostgREST client also
offers, so that never issuing it is expressible; the three others are the
calls `restore_table_batch` makes. -/
inductive WriteOp where
  | upsertBatch (table : String) (rows : List Row)
  | upsertRow (table : String) (row : Row)
  | updateRow (table : String) (id : Value) (row : Row)
  | deleteRow (table : String) (id : Value)
deriving DecidableEq

/-- Whether an operation is the destructive delete. -/
def WriteOp.isDelete : WriteOp → Bool
  | .deleteRow _ _ => true
  | _ => false

/-- The table an operation addresses. -/
def WriteOp.table : WriteOp → String
  | .upsertBatch t _ => t
  | .upsertRow t _ => t
  | .updateRow t _ _ => t
  | .deleteRow t _ => t

/-- Oracle for the remote client's write outcomes: `none` is success,
`some msg` is the message of the raised exception. -/
structure WriteClient where
  bulk : String → List Row → Option String
  single : String → Row → Option String
  updateR : String → Value → Row → Option String

/-- Per-batch counters returned by `restore_table_batch`. -/
structure BatchResult where
  inserted : Nat
  updated : Nat
  errors : Nat
  errorDetails : List String
deriving DecidableEq

/-- List-of-chars infix test, modelling Python `needle in hay`. -/
def containsSub (needle hay : List Char) : Bool :=
  match hay with
  | [] => needle.isEmpty
  | _ :: t => needle.isPrefixOf hay || containsSub needle t

/-- Python `needle in hay` on strings. -/
def strContains (hay needle : String) : Bool :=
  containsSub needle.toList hay.toList

/-- ASCII lowering of one character; the PostgREST error messages the
write fallback classifies are ASCII, where Python `str.lower` and this
agree. -/
def charLower (c : Char) : Char :=
  if 65 <= c.toNat && c.toNat <= 90 then Char.ofNat (c.toNat + 32) else c

/-- Python `error_str.lower()` on the (ASCII) error strings. -/
def strLower (s : String) : String := ⟨s.toList.map charLower⟩

/-- The duplicate-key test of `restore_table_batch`:
`\x27duplicate\x27 in error_str.lower() or \x2723505\x27 in error_str`. -/
def isDuplicateErr (es : String) : Bool :=
  strContains (strLower es) "duplicate" || strContains es "23505"

/-- The generated-column test:
`\x27generated\x27 in error_str.lower() or \x27428C9\x27 in error_str`. -/
def isGeneratedErr (es : String) : Bool :=
  strContains (strLower es) "generated" || strContains es "428C9"

/-- Remove the excluded columns from a row
(`\x7bk: v for k, v in row.items() if k not in columns_to_exclude\x7d`). -/
def filterRow (cols : List String) (r : Row) : Row :=
  r.filter (fun kv => !(cols.contains kv.1))

/-- Outcome of the per-row fallback for one row once the bulk upsert has
failed: does this row end in the `errors` counter?  Mirrors the inner
cascade of `restore_table_batch`: upsert, then on a duplicate-key-class
error an update by id if the id is truthy (an exception from that update is
also counted as an error), every other path counts as an error. -/
def rowFallbackErr (client : WriteClient) (table : String) (cols : List String)
    (row : Row) : Bool :=
  match client.single table row with
  | none => false
  | some es =>
    if isDuplicateErr es then
      match pyGet row "id" with
      | some v =>
        if truthyV v then (client.updateR table v (filterRow cols row)).isSome
        else true
      | none => true
    else true

/-- Like `rowFallbackErr` but for the `updated` counter: a duplicate-key
error, a truthy id, and a successful update. -/
def rowFallbackUpd (client : WriteClient) (table : String) (cols : List String)
    (row : Row) : Bool :=
  match client.single table row with
  | none => false
  | some es =>
    if isDuplicateErr es then
      match pyGet row "id" with
      | some v => truthyV v && (client.updateR table v (filterRow cols row)).isNone
      | none => false
    else false

/-- One step of the per-row fallback loop: updated counters plus the write
operations issued for this row. -/
def rowFallbackStep (client : WriteClient) (table : String) (cols : List String)
    (acc : BatchResult × List WriteOp) (row : Row) : BatchResult × List WriteOp :=
  match client.single table row with
  | none =>
    ({ acc.1 with inserted := acc.1.inserted + 1 }, acc.2 ++ [.upsertRow table row])
  | some es =>
    if isDuplicateErr es then
      match pyGet row "id" with
      | some v =>
        if truthyV v then
          let urow := filterRow cols row
          match client.updateR table v urow with
          | none =>
            ({ acc.1 with updated := acc.1.updated + 1 },
              acc.2 ++ [.upsertRow table row, .updateRow table v urow])
          | some _ =>
            ({ acc.1 with
                errors := acc.1.errors + 1
                errorDetails := acc.1.errorDetails ++ [es.take 200] },
              acc.2 ++ [.upsertRow table row, .updateRow table v urow])
        else
          ({ acc.1 with
              errors := acc.1.errors + 1
              errorDetails := acc.1.errorDetails ++ [es.take 200] },
            acc.2 ++ [.upsertRow table row])
      | none =>
        ({ acc.1 with
            errors := acc.1.errors + 1
            errorDetails := acc.1.errorDetails ++ [es.take 200] },
          acc.2 ++ [.upsertRow table row])
    else if isGeneratedErr es then
      ({ acc.1 with errors := acc.1.errors + 1 }, acc.2 ++ [.upsertRow table row])
    else
      ({ acc.1 with
          errors := acc.1.errors + 1
          errorDetails := acc.1.errorDetails ++ [es.take 200] },
        acc.2 ++ [.upsertRow table row])

/-- `restore_table_batch` (`src/supabase_backup.py` lines 764-817): filter
the excluded columns, attempt one bulk upsert of the whole batch, and on
its failure fall through to the per-row cascade.  The returned trace lists
every write call issued, the (failed) bulk attempt included; `[:5]` on the
error details is applied by the caller when logging, not here. -/
def restore_table_batch (client : WriteClient) (table : String)
    (batch : List Row) (cols : List String) : BatchResult × List WriteOp :=
  let fb := batch.map (filterRow cols)
  match client.bulk table fb with
  | none => (⟨fb.length, 0, 0, []⟩, [.upsertBatch table fb])
  | some _ =>
    fb.foldl (rowFallbackStep client table cols) (⟨0, 0, 0, []⟩, [.upsertBatch table fb])

/-- Recursion core of `chunks`, structural on a fuel argument so that the
definition reduces; with `n ≥ 1` and fuel at least the list length the
fuel never runs out (the `0, l` branch is only reachable for `n = 0`,
which the embedded code never passes). -/
def chunksGo (n : Nat) : Nat → List α → List (List α)
  | _, [] => []
  | 0, l => [l]
  | fuel + 1, a :: l => ((a :: l).take n) :: chunksGo n fuel ((a :: l).drop n)

/-- `range(0, len(data), n)` slicing for `n > 0`: split a list into chunks
of `n`, the last one possibly short. -/
def chunks (n : Nat) (l : List α) : List (List α) :=
  chunksGo n l.length l

/-- `DEFAULT_BATCH_SIZE` (`src/supabase_backup.py` line 76). -/
def DEFAULT_BATCH_SIZE : Nat := 100

/-- The per-table column exclusion map of `restore_backup`
(`src/supabase_backup.py` lines 949-952). -/
def excludedColumns (t : String) : List String :=
  if t = "booking_hajj" then ["booking_number"]
  else if t = "room_allotments" then ["id"]
  else []

/-- The metadata fields of a loaded backup document that the restore path
reads. -/
structure Meta where
  timestamp : String
  backupType : String
  previousBackup : Option String
  tables : List String
deriving DecidableEq

/-- A loaded backup document as seen by `validate_backup_data` and
`restore_backup`.  `metadata = none` models an absent (or empty, hence
falsy) `metadata` object; the `data` object is kept explicit so that a
PRESENT but EMPTY `data` section (`some []`) is distinguishable from a
missing one (`none`): Python `not backup_data.get(k)` is true for both. -/
structure BackupDoc where
  metadata : Option Meta
  data : Option (List (String × Entry))
deriving DecidableEq

/-- `critical_tables` of `validate_backup_data`. -/
def criticalTables : List String := ["users", "packages", "bookings"]

/-- Python truthiness of the `data` section: absent or empty dict is falsy. -/
def dataTruthy : Option (List (String × Entry)) → Bool
  | none => false
  | some es => !es.isEmpty

/-- Whether the first row of a non-empty table triggers the missing-id
warning: `\x27id\x27 not in data[0] and table not in [\x27room_allotments\x27]`
(key presence, not truthiness). -/
def missingIdWarning (table : String) (rows : List Row) : Bool :=
  match rows with
  | [] => false
  | r :: _ => (pyGet r "id").isNone && !(table = "room_allotments")

/-- `validate_backup_data` (`src/backup_supabase_safe.py` lines 118-147,
identical in `src/supabase_backup.py` lines 243-269): returns
`(is_valid, errors, warnings)`.  The two error checks use Python
truthiness of `backup_data.get(...)`. -/
def validate_backup_data (doc : BackupDoc) : Bool × List String × List String :=
  match doc.metadata with
  | none => (false, ["Missing metadata in backup"], [])
  | some _ =>
    if !dataTruthy doc.data then (false, ["Missing data in backup"], [])
    else
      let entries := doc.data.getD []
      let w1 := criticalTables.filterMap (fun t =>
        if (entries.lookup t).isNone then
          some ("Critical table " ++ sq ++ t ++ sq ++ " not found in backup")
        else none)
      let w2 := entries.filterMap (fun te =>
        match te.2 with
        | .failed _ => some ("Table " ++ sq ++ te.1 ++ sq ++ " had backup errors")
        | .materialized rows =>
          if missingIdWarning te.1 rows then
            some ("Table " ++ sq ++ te.1 ++ sq ++ " rows missing " ++ sq ++ "id" ++ sq ++ " field")
          else none
        | .unchanged _ _ => none)
      (true, [], w1 ++ w2)

/-- Lines 904-924 of `src/supabase_backup.py` (and 492-504 of
`src/backup_supabase.py`): for an incremental backup, load the single
snapshot named by `metadata[previous_backup]` and substitute each
`_unchanged` entry by THAT snapshot's entry for the same table
(`prev_backup[data].get(table, [])`, so a table the previous backup lacks
becomes the empty list).  Exactly one link is followed; if the previous
snapshot's entry is itself an `_unchanged` marker, the marker is copied in
and later skipped by the restore loop.  A missing or unreadable previous
file leaves the markers in place. -/
def mergeEntry (prev : Snapshot) (t : String) : Entry → Entry
  | .unchanged _ _ => (prev.data.lookup t).getD (.materialized [])
  | e => e

def mergeIncremental (store : SnapStore) (meta : Meta)
    (entries : List (String × Entry)) : List (String × Entry) :=
  if meta.backupType = "incremental" then
    match meta.previousBackup with
    | none => entries
    | some ts =>
      match store ts with
      | none => entries
      | some prev => entries.map (fun te => (te.1, mergeEntry prev te.1 te.2))
  else entries

/-- One restore task: `(table, batch, columns_to_exclude)`. -/
abbrev RestoreTask := String × List Row × List String

/-- The task-building loop of `restore_backup` (lines 955-979): iterate
`metadata[tables]`, skip `_backup_failed` entries (recording them under
`tables_failed`), `_unchanged` entries and empty lists, and split each
remaining row list into `DEFAULT_BATCH_SIZE` batches.  A table missing
from the `data` dict makes `len(None)` raise `TypeError` (line 971), which
the surrounding `try` turns into overall failure before any write: the
`Except.error` case. -/
def buildTasks (tables : List String) (merged : List (String × Entry)) :
    Except String (List RestoreTask × List String) :=
  match tables with
  | [] => .ok ([], [])
  | t :: rest =>
    match merged.lookup t with
    | none => .error "TypeError: object of type NoneType has no len()"
    | some (.failed _) => (buildTasks rest merged).map (fun r => (r.1, t :: r.2))
    | some (.unchanged _ _) => buildTasks rest merged
    | some (.materialized rows) =>
      if rows.isEmpty then buildTasks rest merged
      else
        (buildTasks rest merged).map (fun r =>
          ((chunks DEFAULT_BATCH_SIZE rows).map (fun b => (t, b, excludedColumns t)) ++ r.1,
            r.2))

/-- The sequential task loop of `restore_backup` (lines 1027-1044):
run every batch through `restore_table_batch`, summing the counters and
concatenating the issued write operations. -/
def runTasks (client : WriteClient) : List RestoreTask → BatchResult × List WriteOp
  | [] => (⟨0, 0, 0, []⟩, [])
  | task :: rest =>
    let r := restore_table_batch client task.1 task.2.1 task.2.2
    let rr := runTasks client rest
    (⟨r.1.inserted + rr.1.inserted, r.1.updated + rr.1.updated,
      r.1.errors + rr.1.errors, r.1.errorDetails ++ rr.1.errorDetails⟩,
     r.2 ++ rr.2)

/-- Environment of one `restore_backup` invocation: the branch conditions
and collaborator outcomes the control flow consults, in the order the
source consults them. -/
structure RestoreEnv where
  backupExists : Bool
  envOk : Bool
  safety : Option String
  clientOk : Bool
  doc : BackupDoc
  store : SnapStore
  client : WriteClient

/-- Observable outcome of one `restore_backup` invocation. -/
structure RestoreResult where
  success : Bool
  safetyFile : Option String
  writes : List WriteOp
  tablesFailed : List String
  totalInserted : Nat
  totalUpdated : Nat
  totalErrors : Nat

/-- A failed run that issued no writes. -/
def failedRun (sf : Option String) : RestoreResult :=
  ⟨false, sf, [], [], 0, 0, 0⟩

/-- The body of `restore_backup` after the safety-backup step (lines
860-1097 of `src/supabase_backup.py`): connect, load (the document is the
environment's), validate, merge the incremental references, build the
restore tasks, and run them sequentially.  Baseline/verification row
counts and the restore-log file are remote reads and local writes and are
not part of the write trace. -/
def restoreMain (env : RestoreEnv) (sf : Option String) : RestoreResult :=
  if !env.clientOk then failedRun sf
  else
    let v := validate_backup_data env.doc
    if !v.1 then failedRun sf
    else
      match env.doc.metadata, env.doc.data with
      | some meta, some entries =>
        let merged := mergeIncremental env.store meta entries
        match buildTasks meta.tables merged with
        | .error _ => failedRun sf
        | .ok (tasks, tfailed) =>
          let r := runTasks env.client tasks
          ⟨true, sf, r.2, tfailed, r.1.inserted, r.1.updated, r.1.errors⟩
      | _, _ => failedRun sf

/-- `restore_backup` (`src/supabase_backup.py` lines 819-1097): existence
check, env loading, then — unless the caller opted out — the mandatory
safety backup, whose failure cancels the restore before anything else
happens; then the main body. -/
def restoreRun (env : RestoreEnv) (skipSafety : Bool) : RestoreResult :=
  if !env.backupExists then failedRun none
  else if !env.envOk then failedRun none
  else if !skipSafety then
    match env.safety with
    | none => failedRun none
    | some sf => restoreMain env (some sf)
  else restoreMain env none

/-- The metadata fields of a snapshot, as the restore path reads them. -/
def metaOf (s : Snapshot) : Meta :=
  ⟨s.timestamp, s.backupType, s.previousBackup, s.tables⟩

/-- The rows the restore write-back actually writes for one table of one
snapshot: the table's entry after the one-link incremental merge, when
that entry is a non-empty row list; every other shape (marker left in
place, failed marker, empty list, absent table) is skipped by the loop of
lines 955-979 and yields `none`. -/
def effectiveRows (store : SnapStore) (snap : Snapshot) (table : String) :
    Option (List Row) :=
  match (mergeIncremental store (metaOf snap) snap.data).lookup table with
  | some (.materialized rows) => if rows.isEmpty then none else some rows
  | _ => none

/-- The remote store, as a mapping from table name to its rows. -/
abbrev RemoteStore := String → List Row

/-- Semantics of one PostgREST upsert of one row: replace the rows whose
primary key equals the new row's `id`, or append when no row matches (or
when the row carries no `id`, in which case the server assigns a fresh
generated key). -/
def upsertOne (rows : List Row) (row : Row) : List Row :=
  match pyGet row "id" with
  | none => rows ++ [row]
  | some v =>
    if rows.any (fun r => pyGet r "id" = some v) then
      rows.map (fun r => if pyGet r "id" = some v then row else r)
    else rows ++ [row]

/-- Semantics of `update(cols).eq(\x27id\x27, v)`: overwrite the listed
columns of every row whose `id` is `v`, leaving other columns in place. -/
def pyMergeRow (base upd : Row) : Row :=
  (base.map (fun kv =>
    match upd.lookup kv.1 with
    | some v => (kv.1, v)
    | none => kv)) ++
  upd.filter (fun kv => (base.lookup kv.1).isNone)

/-- Apply one remote write operation to the remote store. -/
def applyOp (s : RemoteStore) : WriteOp → RemoteStore
  | .upsertBatch t rs => fun t' => if t' = t then rs.foldl upsertOne (s t) else s t'
  | .upsertRow t r => fun t' => if t' = t then upsertOne (s t) r else s t'
  | .updateRow t v r => fun t' =>
    if t' = t then
      (s t).map (fun row => if pyGet row "id" = some v then pyMergeRow row r else row)
    else s t'
  | .deleteRow t v => fun t' =>
    if t' = t then (s t).filter (fun row => !(pyGet row "id" = some v : Bool)) else s t'

/-- Apply a trace of write operations in order. -/
def applyWrites (s : RemoteStore) (ops : List WriteOp) : RemoteStore :=
  ops.foldl applyOp s

/-- The `id` values a trace addresses in one table: the ids of upserted
rows and the keys of updates and deletes.  Rows outside this set can only
be left alone. -/
def touchedIds (ops : List WriteOp) (t : String) : List Value :=
  ops.foldr (fun op acc =>
    match op with
    | .upsertBatch t' rs =>
      if t' = t then rs.filterMap (fun r => pyGet r "id") ++ acc else acc
    | .upsertRow t' r =>
      if t' = t then (pyGet r "id").toList ++ acc else acc
    | .updateRow t' v _ => if t' = t then v :: acc else acc
    | .deleteRow t' v => if t' = t then v :: acc else acc) []

/-- One backup file on disk, with the modification time `cleanup_old_backups`
sorts by. -/
structure BFile where
  name : String
  mtime : Nat
deriving DecidableEq

/-- Newest-first order on backup files, the order of
`sorted(..., key=lambda x: x.stat().st_mtime, reverse=True)`. -/
def mtimeGe (a b : BFile) : Prop := b.mtime ≤ a.mtime

instance : DecidableRel mtimeGe := fun a b =>
  decidable_of_iff (b.mtime ≤ a.mtime) Iff.rfl

instance : IsTotal BFile mtimeGe :=
  ⟨fun a b => (Nat.le_total b.mtime a.mtime).imp id id⟩

instance : IsTrans BFile mtimeGe :=
  ⟨fun _ _ _ h1 h2 => Nat.le_trans h2 h1⟩

/-- `sorted(backup_files, key=lambda x: x.stat().st_mtime, reverse=True)`. -/
def sortByMtimeDesc (files : List BFile) : List BFile :=
  List.insertionSort mtimeGe files

/-- Python `str.replace` on character lists, scanning left to right and
replacing non-overlapping occurrences; the fuel argument (instantiated
with the list length, which bounds the number of steps) keeps the
recursion structural. -/
def replaceCharsF : Nat → List Char → List Char → List Char → List Char
  | 0, s, _, _ => s
  | _ + 1, [], _, _ => []
  | fuel + 1, c :: rest, pat, rep =>
    if pat.isPrefixOf (c :: rest) ∧ pat ≠ [] then
      rep ++ replaceCharsF fuel ((c :: rest).drop pat.length) pat rep
    else c :: replaceCharsF fuel rest pat rep

/-- Python `s.replace(pat, rep)` for non-empty `pat`. -/
def pyReplace (s pat rep : String) : String :=
  ⟨replaceCharsF s.toList.length s.toList pat.toList rep.toList⟩

/-- The summary-file name derived from a backup-file name (line 632 of
`src/supabase_backup.py`): replace the backup marker by the summary marker
and drop a `.gz` suffix. -/
def summaryName (n : String) : String :=
  pyReplace (pyReplace n "supabase_backup_" "backup_summary_") ".gz" ""

/-- `cleanup_old_backups` (`src/supabase_backup.py` lines 618-640): sort
the backup files newest-first by mtime and, when more than `keepCount`
exist, delete every file beyond the first `keepCount` together with its
summary artifact.  Returns the surviving backup files and surviving
summary names; deletions are assumed to succeed (the `except` only logs). -/
def cleanup_old_backups (files : List BFile) (summaries : List String)
    (keepCount : Nat) : List BFile × List String :=
  let sorted := sortByMtimeDesc files
  if keepCount < sorted.length then
    (sorted.take keepCount,
      (sorted.drop keepCount).foldl
        (fun acc f => acc.filter (fun s => !(s = summaryName f.name : Bool))) summaries)
  else (files, summaries)

/-- The retention default: `cleanup_old_backups(keep_count=288)` at lines
591 and 345 of the two backup scripts. -/
def DEFAULT_KEEP_COUNT : Nat := 288

/-- A remote client whose writes all succeed, used to instantiate
environments in concrete scenarios. -/
def noopClient : WriteClient := ⟨fun _ _ => none, fun _ _ => none, fun _ _ _ => none⟩

/-- Whether an operation is an update-by-id. -/
def WriteOp.isUpdateRow : WriteOp → Bool
  | .updateRow _ _ _ => true
  | _ => false

/-- Like `rowFallbackErr` but for the `inserted` counter: the per-row
upsert succeeded. -/
def rowFallbackIns (client : WriteClient) (table : String) (row : Row) : Bool :=
  (client.single table row).isNone

/-- The write operations the per-row fallback issues for one row: always
the per-row upsert attempt, followed by the update-by-id attempt when the
upsert raised a duplicate-key-class error and the row's id is truthy. -/
def rowOps (client : WriteClient) (table : String) (cols : List String)
    (row : Row) : List WriteOp :=
  match client.single table row with
  | none => [.upsertRow table row]
  | some es =>
    if isDuplicateErr es then
      match pyGet row "id" with
      | some v =>
        if truthyV v then [.upsertRow table row, .updateRow table v (filterRow cols row)]
        else [.upsertRow table row]
      | none => [.upsertRow table row]
    else [.upsertRow table row]

/-! ## Concrete scenario data and derived definitions used by the theorems -/

def w4row : Row := [("id", .vint 1), ("name", .vstr "x")]

def w4new : Row := [("id", .vint 2), ("name", .vstr "y")]

def c5src : String → TableSource := fun _ => .pages [.error "network down"]

def w6env : RestoreEnv :=
  ⟨true, true, none, true, ⟨none, none⟩, fun _ => none, noopClient⟩

def c1rowA : Row := [("id", .vint 1), ("name", .vstr "alice")]

def c1rowB : Row := [("id", .vint 2), ("name", .vstr "bob")]

def c1hash : Fingerprint := calculate_table_hash [c1rowA, c1rowB]

def c1s1 : Snapshot :=
  ⟨"T1", "full", none, ["users"], [("users", .materialized [c1rowA, c1rowB])]⟩

def c1s2 : Snapshot :=
  ⟨"T2", "incremental", some "T1", ["users"], [("users", .unchanged "T1" c1hash)]⟩

def c1s3 : Snapshot :=
  ⟨"T3", "incremental", some "T2", ["users"], [("users", .unchanged "T2" c1hash)]⟩

def c1store : SnapStore := fun ts =>
  if ts = "T1" then some c1s1
  else if ts = "T2" then some c1s2
  else if ts = "T3" then some c1s3
  else none

def c2hash : Fingerprint := calculate_table_hash [c1rowA]

def c2sA : Snapshot :=
  ⟨"C1", "incremental", some "C2", ["users"], [("users", .unchanged "C2" c2hash)]⟩

def c2sB : Snapshot :=
  ⟨"C2", "incremental", some "C1", ["users"], [("users", .unchanged "C1" c2hash)]⟩

def c2store : SnapStore := fun ts =>
  if ts = "C1" then some c2sA
  else if ts = "C2" then some c2sB
  else none

def c2env : RestoreEnv :=
  ⟨true, true, none, true, ⟨some (metaOf c2sA), some c2sA.data⟩, c2store, noopClient⟩

def c7meta : Meta := ⟨"T1", "full", none, ["users"]⟩

def w7doc : BackupDoc :=
  ⟨some ⟨"T1", "full", none, ["t1"]⟩, some [("t1", .materialized [[("id", .vint 1)]])]⟩

def w7env : RestoreEnv := ⟨true, true, none, true, w7doc, fun _ => none, noopClient⟩

def cex8client : WriteClient :=
  ⟨fun _ _ => some "bulk failed",
    fun _ _ => some "duplicate key value violates unique constraint 23505",
    fun _ _ _ => none⟩

def cex8row : Row := [("id", .vint 0), ("name", .vstr "z")]

def w8client : WriteClient :=
  ⟨fun _ _ => some "bulk conflict",
    fun _ r => if pyGet r "id" = some (.vint 1) then none
      else some "duplicate key value violates unique constraint 23505",
    fun _ _ _ => none⟩

def w8rowA : Row := [("id", .vint 1)]

def w8rowB : Row := [("id", .vint 2)]

def w8rowC : Row := [("name", .vstr "anon")]

def w8batch : List Row := [w8rowA, w8rowB, w8rowC]

def c9rows : List Row := [[("id", .vint 1), ("name", .vstr "x")]]

def c9h : Fingerprint := calculate_table_hash c9rows

def c9s1 : Snapshot :=
  ⟨"T1", "full", none, ["users"], [("users", .materialized c9rows)]⟩

def c9s2 : Snapshot :=
  ⟨"T2", "incremental", some "T1", ["users"], [("users", .unchanged "T1" c9h)]⟩

def c9f1 : BFile := ⟨"supabase_backup_T1.json", 1⟩

def c9f2 : BFile := ⟨"supabase_backup_T2.json", 2⟩

def c9storeBefore : SnapStore := fun ts =>
  if ts = "T1" then some c9s1 else if ts = "T2" then some c9s2 else none

def c9storeAfter : SnapStore := fun ts =>
  if ts = "T2" then some c9s2 else none

/-- The entry the restore loop sees for a table: the document's entry
after the incremental-merge step. -/
def resolvedEntry (env : RestoreEnv) (t : String) : Option Entry :=
  match env.doc.metadata, env.doc.data with
  | some m, some es => (mergeIncremental env.store m es).lookup t
  | _, _ => none

/-- Entries the task-building loop skips without scheduling any write:
failed markers, unchanged markers and empty row lists. -/
def entrySkipped : Entry → Bool
  | .materialized rows => rows.isEmpty
  | _ => true

def w10doc : BackupDoc :=
  ⟨some ⟨"T1", "full", none, ["users", "logs", "tmp"]⟩,
    some [("users", .materialized [[("id", .vint 1)]]),
      ("logs", .materialized []),
      ("tmp", .failed "boom")]⟩

def w10env : RestoreEnv := ⟨true, true, none, true, w10doc, fun _ => none, noopClient⟩

/-- Strengthening of `rowLe` that is antisymmetric: used to conclude that
two sorted permutations with pairwise-distinct sort keys are equal. -/
def rowLeStrict (a b : Row) : Prop := rowLe a b ∧ (a = b ∨ sortKey a ≠ sortKey b)

def c3r1 : Row := [("id", .vint 1)]

def c3r2 : Row := [("id", .vstr "a")]

def c3wA : Row := [("id", .vint 1), ("name", .vstr "x")]

def c3wB : Row := [("id", .vint 2), ("name", .vstr "y")]

/-! ## Helper lemmas -/

theorem length_pySortRows (d : List Row) : (pySortRows d).length = d.length := by
  unfold pySortRows
  split
  · exact (List.perm_insertionSort _ _).length_eq
  · rfl

theorem calculate_table_hash_ne_of_length {A B : List Row}
    (h : A.length ≠ B.length) : calculate_table_hash A ≠ calculate_table_hash B := by
  intro hEq
  unfold calculate_table_hash at hEq
  by_cases hA : A.isEmpty <;> by_cases hB : B.isEmpty
  · rw [List.isEmpty_iff] at hA hB
    subst hA
    subst hB
    exact h rfl
  · simp [hA, hB] at hEq
  · simp [hA, hB] at hEq
  · simp only [hA, hB, Bool.false_eq_true, if_false, Fingerprint.digest.injEq] at hEq
    have hl := congrArg List.length hEq
    simp only [List.length_map, length_pySortRows] at hl
    exact h hl

theorem idSet_append (A B : List Row) : idSet (A ++ B) = idSet A ∪ idSet B := by
  unfold idSet
  rw [List.filterMap_append, List.toFinset_append]

theorem idSet_single {r : Row} {v : Value} (hid : pyGet r "id" = some v)
    (htr : truthyV v = true) : idSet [r] = {v} := by
  unfold idSet
  simp [List.filterMap, hid, htr]

/-! ## C4: change-detection correctness -/

/-- C4: `compare_table_data(R, R)` reports `changed == false` for every row
set `R`; and appending one new row whose identifier is truthy and absent
from `R` reports `changed == true` with `added_count == 1`. -/
theorem c4_compare_correctness :
    (∀ R : List Row, changedOf (compare_table_data R (some R)) = false) ∧
    (∀ (R : List Row) (newRow : Row) (v : Value),
      pyGet newRow "id" = some v → truthyV v = true → v ∉ idSet R →
      changedOf (compare_table_data (R ++ [newRow]) (some R)) = true ∧
      addedOf (compare_table_data (R ++ [newRow]) (some R)) = some 1) := by
  constructor
  · intro R
    simp [compare_table_data, changedOf]
  · intro R newRow v hid htr hnot
    have hne : calculate_table_hash (R ++ [newRow]) ≠ calculate_table_hash R := by
      apply calculate_table_hash_ne_of_length
      simp
    have hsd : idSet (R ++ [newRow]) \ idSet R = {v} := by
      rw [idSet_append, idSet_single hid htr]
      ext x
      simp only [Finset.mem_sdiff, Finset.mem_union, Finset.mem_singleton]
      constructor
      · rintro ⟨hx | hx, hx2⟩
        · exact absurd hx hx2
        · exact hx
      · rintro rfl
        exact ⟨Or.inr rfl, hnot⟩
    unfold compare_table_data
    simp only [hne, if_neg, ite_false]
    rw [hsd]
    simp [changedOf, addedOf]

/-- Witness for C4 at a concrete two-row input. -/
theorem c4_witness :
    changedOf (compare_table_data [w4row] (some [w4row])) = false ∧
    changedOf (compare_table_data ([w4row] ++ [w4new]) (some [w4row])) = true ∧
    addedOf (compare_table_data ([w4row] ++ [w4new]) (some [w4row])) = some 1 :=
  ⟨c4_compare_correctness.1 [w4row],
    c4_compare_correctness.2 [w4row] w4new (.vint 2) (by decide) (by decide) (by decide)⟩

/-! ## C5: fetch errors during backup -/

/-- C5 failing input: a table whose very first page request raises.
`fetch_table_data` swallows the exception and returns the rows accumulated
so far (here none), so `create_backup` stores a materialized EMPTY table
counted as a success — not the `Failed\x7bmessage\x7d` marker the claim
describes. -/
theorem c5_fetch_error_materialized_empty :
    fetch_table_data [.error "network down"] 1000 = [] ∧
    createBackupData ["users"] c5src (fun _ => none) none false =
      [("users", .materialized [])] ∧
    Entry.materialized [] ≠ .failed "network down" := by
  refine ⟨rfl, rfl, by decide⟩

/-! ## C6: safety-backup failure aborts the restore -/

/-- C6: when the caller did not opt out of the safety backup and creating
it fails, `restore_backup` reports failure and issues no write operation
against the remote store. -/
theorem c6_safety_failure_aborts (env : RestoreEnv) (h : env.safety = none) :
    (restoreRun env false).success = false ∧ (restoreRun env false).writes = [] := by
  by_cases h1 : env.backupExists <;> by_cases h2 : env.envOk <;>
    simp [restoreRun, h1, h2, h, failedRun]

/-- Witness for C6 at a concrete environment. -/
theorem c6_witness :
    (restoreRun w6env false).success = false ∧ (restoreRun w6env false).writes = [] :=
  c6_safety_failure_aborts w6env rfl

/-! ## C1 and C2: chain resolution during restore -/

theorem lookup_mergeMap (prev : Snapshot) (l : List (String × Entry)) (t : String) :
    List.lookup t (l.map (fun te => (te.1, mergeEntry prev te.1 te.2))) =
      (List.lookup t l).map (mergeEntry prev t) := by
  induction l with
  | nil => rfl
  | cons he tl ih =>
    obtain ⟨k, e⟩ := he
    by_cases hk : t = k
    · subst hk
      simp [List.lookup]
    · have hbeq : (t == k) = false := by simpa using hk
      simp [List.lookup, hbeq, ih]

theorem mergeIncremental_lookup_unchanged {store : SnapStore} {meta : Meta}
    {entries : List (String × Entry)} {prev : Snapshot} {t p ref : String}
    {hf : Fingerprint}
    (hinc : meta.backupType = "incremental")
    (hprev : meta.previousBackup = some p)
    (hstore : store p = some prev)
    (hentry : entries.lookup t = some (.unchanged ref hf)) :
    (mergeIncremental store meta entries).lookup t =
      some ((prev.data.lookup t).getD (.materialized [])) := by
  unfold mergeIncremental
  rw [hinc, hprev]
  rw [if_pos rfl]
  dsimp only
  rw [hstore]
  dsimp only
  rw [lookup_mergeMap, hentry]
  rfl

/-- C1 amended: the restore path follows exactly ONE `Unchanged` link.  If
the snapshot's entry for a table is `Unchanged` and the previous snapshot's
entry for it is `Materialized rows` (non-empty), restore resolves to those
rows; but if the previous snapshot's entry is itself `Unchanged`, the
marker is copied in and the table is skipped — the resolution never reaches
a `Materialized` entry further back. -/
theorem c1_chain_one_step (store : SnapStore) (snap prev : Snapshot)
    (t p ref : String) (hf : Fingerprint)
    (hinc : snap.backupType = "incremental")
    (hprev : snap.previousBackup = some p)
    (hstore : store p = some prev)
    (hentry : snap.data.lookup t = some (.unchanged ref hf)) :
    (∀ rows, prev.data.lookup t = some (.materialized rows) → rows ≠ [] →
      effectiveRows store snap t = some rows) ∧
    (∀ ref2 hf2, prev.data.lookup t = some (.unchanged ref2 hf2) →
      effectiveRows store snap t = none) := by
  have hmerge := @mergeIncremental_lookup_unchanged store (metaOf snap) snap.data
    prev t p ref hf hinc hprev hstore hentry
  constructor
  · intro rows hrows hne
    unfold effectiveRows
    rw [hmerge, hrows]
    simp [List.isEmpty_iff, hne]
  · intro ref2 hf2 hrows
    unfold effectiveRows
    rw [hmerge, hrows]
    rfl

/-- C1 counterexample: in the chain S1(materialized [a,b]), S2(unchanged
referencing S1), S3(unchanged referencing S2), resolving the table from S3
does NOT yield S1's rows — the single merge step copies S2's still-
`Unchanged` marker in and the restore loop skips the table. -/
theorem c1_counterexample :
    c1s1.data.lookup "users" = some (.materialized [c1rowA, c1rowB]) ∧
    c1s2.data.lookup "users" = some (.unchanged "T1" c1hash) ∧
    c1s3.data.lookup "users" = some (.unchanged "T2" c1hash) ∧
    effectiveRows c1store c1s3 "users" = none ∧
    effectiveRows c1store c1s3 "users" ≠ some [c1rowA, c1rowB] := by
  refine ⟨rfl, rfl, rfl, by decide, by decide⟩

/-- Witness for C1: a single link IS resolved — restoring S2 yields S1's
materialized rows. -/
theorem c1_witness : effectiveRows c1store c1s2 "users" = some [c1rowA, c1rowB] :=
  (c1_chain_one_step c1store c1s2 c1s1 "users" "T1" "T1" c1hash rfl rfl
    (by decide) rfl).1 [c1rowA, c1rowB] rfl (by decide)

theorem buildTasks_task_mem {tables : List String} {merged : List (String × Entry)}
    {tasks : List RestoreTask} {tf : List String} {task : RestoreTask}
    (hb : buildTasks tables merged = .ok (tasks, tf)) (hmem : task ∈ tasks) :
    ∃ rows, merged.lookup task.1 = some (.materialized rows) ∧ rows ≠ [] := by
  induction tables generalizing tasks tf with
  | nil =>
    unfold buildTasks at hb
    cases hb
    simp at hmem
  | cons t rest ih =>
    unfold buildTasks at hb
    cases hlook : merged.lookup t with
    | none => rw [hlook] at hb; cases hb
    | some e =>
      rw [hlook] at hb
      cases e with
      | failed err =>
        dsimp only at hb
        cases hrest : buildTasks rest merged with
        | error e2 => rw [hrest] at hb; cases hb
        | ok r =>
          obtain ⟨tks, tfs⟩ := r
          rw [hrest] at hb
          simp only [Except.map, Except.ok.injEq, Prod.mk.injEq] at hb
          obtain ⟨hb1, hb2⟩ := hb
          subst hb1
          exact ih hrest hmem
      | unchanged r2 h2 =>
        dsimp only at hb
        exact ih hb hmem
      | materialized rows =>
        dsimp only at hb
        by_cases hrows : rows.isEmpty
        · rw [if_pos hrows] at hb
          exact ih hb hmem
        · rw [if_neg hrows] at hb
          cases hrest : buildTasks rest merged with
          | error e2 => rw [hrest] at hb; cases hb
          | ok r =>
            obtain ⟨tks, tfs⟩ := r
            rw [hrest] at hb
            simp only [Except.map, Except.ok.injEq, Prod.mk.injEq] at hb
            obtain ⟨hb1, hb2⟩ := hb
            subst hb1
            rcases List.mem_append.mp hmem with hmem | hmem
            · rcases List.mem_map.mp hmem with ⟨b, _, rfl⟩
              exact ⟨rows, hlook, by simpa [List.isEmpty_iff] using hrows⟩
            · exact ih hrest hmem

theorem buildTasks_failed_mem {tables : List String} {merged : List (String × Entry)}
    {tasks : List RestoreTask} {tf : List String} {t' : String}
    (hb : buildTasks tables merged = .ok (tasks, tf)) (hmem : t' ∈ tf) :
    ∃ e, merged.lookup t' = some (.failed e) := by
  induction tables generalizing tasks tf with
  | nil =>
    unfold buildTasks at hb
    cases hb
    simp at hmem
  | cons t rest ih =>
    unfold buildTasks at hb
    cases hlook : merged.lookup t with
    | none => rw [hlook] at hb; cases hb
    | some e =>
      rw [hlook] at hb
      cases e with
      | failed err =>
        dsimp only at hb
        cases hrest : buildTasks rest merged with
        | error e2 => rw [hrest] at hb; cases hb
        | ok r =>
          obtain ⟨tks, tfs⟩ := r
          rw [hrest] at hb
          simp only [Except.map, Except.ok.injEq, Prod.mk.injEq] at hb
          obtain ⟨hb1, hb2⟩ := hb
          subst hb2
          rcases List.mem_cons.mp hmem with rfl | hmem
          · exact ⟨err, hlook⟩
          · exact ih hrest hmem
      | unchanged r2 h2 =>
        dsimp only at hb
        exact ih hb hmem
      | materialized rows =>
        dsimp only at hb
        by_cases hrows : rows.isEmpty
        · rw [if_pos hrows] at hb
          exact ih hb hmem
        · rw [if_neg hrows] at hb
          cases hrest : buildTasks rest merged with
          | error e2 => rw [hrest] at hb; cases hb
          | ok r =>
            obtain ⟨tks, tfs⟩ := r
            rw [hrest] at hb
            simp only [Except.map, Except.ok.injEq, Prod.mk.injEq] at hb
            obtain ⟨hb1, hb2⟩ := hb
            subst hb2
            exact ih hrest hmem

/-- C2 amended: on a chain whose referenced entry is itself `Unchanged`
(the cyclic chain S1(unchanged→S2), S2(unchanged→S1) included), resolution
terminates — only one link is ever followed — and returns no data, but no
`ChainCycle` (or any other) error is produced: the restore loop silently
skips the table, scheduling no write task for it and not recording it
among the failed tables. -/
theorem c2_cycle_silent_skip (store : SnapStore) (meta : Meta)
    (entries : List (String × Entry)) (prev : Snapshot)
    (t p ref ref2 : String) (hf hf2 : Fingerprint)
    (tables : List String) (tasks : List RestoreTask) (tfailed : List String)
    (hinc : meta.backupType = "incremental")
    (hprev : meta.previousBackup = some p)
    (hstore : store p = some prev)
    (hentry : entries.lookup t = some (.unchanged ref hf))
    (hrefentry : prev.data.lookup t = some (.unchanged ref2 hf2))
    (hb : buildTasks tables (mergeIncremental store meta entries) = .ok (tasks, tfailed)) :
    (mergeIncremental store meta entries).lookup t = some (.unchanged ref2 hf2) ∧
    (∀ task ∈ tasks, task.1 ≠ t) ∧ t ∉ tfailed := by
  have hmerge : (mergeIncremental store meta entries).lookup t =
      some (.unchanged ref2 hf2) := by
    rw [mergeIncremental_lookup_unchanged hinc hprev hstore hentry, hrefentry]
    rfl
  refine ⟨hmerge, ?_, ?_⟩
  · intro task hmem heq
    rcases buildTasks_task_mem hb hmem with ⟨rows, hrows, _⟩
    rw [heq, hmerge] at hrows
    cases hrows
  · intro hmem
    rcases buildTasks_failed_mem hb hmem with ⟨e, he⟩
    rw [hmerge] at he
    cases he

/-- C2 counterexample: on the cyclic chain S1(unchanged→S2),
S2(unchanged→S1), resolution returns no data for the table, yet the
restore neither raises nor records a `ChainCycle` error — the whole run
reports success with no failed table and no writes; the code has no cycle
error at all. -/
theorem c2_counterexample :
    c2sA.data.lookup "users" = some (.unchanged "C2" c2hash) ∧
    c2sB.data.lookup "users" = some (.unchanged "C1" c2hash) ∧
    c2sA.previousBackup = some "C2" ∧
    c2sB.previousBackup = some "C1" ∧
    effectiveRows c2store c2sA "users" = none ∧
    (restoreRun c2env true).success = true ∧
    (restoreRun c2env true).tablesFailed = [] ∧
    (restoreRun c2env true).writes = [] := by
  refine ⟨rfl, rfl, rfl, rfl, by decide, by decide, by decide, by decide⟩

/-- Witness for C2 at the concrete cyclic chain. -/
theorem c2_witness :
    (mergeIncremental c2store (metaOf c2sA) c2sA.data).lookup "users" =
      some (.unchanged "C1" c2hash) ∧
    (∀ task ∈ ([] : List RestoreTask), task.1 ≠ "users") ∧
    "users" ∉ ([] : List String) :=
  c2_cycle_silent_skip c2store (metaOf c2sA) c2sA.data c2sB "users" "C2" "C2" "C1"
    c2hash c2hash ["users"] [] [] rfl rfl (by decide) rfl rfl rfl

/-! ## C7: restore validation -/

/-- C7 counterexample: a backup whose `data` section is PRESENT but empty
is classified invalid — the check is Python truthiness, not presence — so
"invalid exactly when metadata or data is missing" fails. -/
theorem c7_counterexample :
    (validate_backup_data ⟨some c7meta, some []⟩).1 = false ∧
    (⟨some c7meta, some []⟩ : BackupDoc).data ≠ none := by
  refine ⟨rfl, by decide⟩

/-- C7 amended: validation classifies a backup as invalid exactly when its
metadata section is missing or its data section is missing OR EMPTY; an
invalid backup aborts the restore before any remote write; a valid backup
proceeds to write-back regardless of warnings (missing critical table,
rows lacking an id field — the latter exempting `room_allotments`). -/
theorem c7_validation_amended :
    (∀ doc : BackupDoc, (validate_backup_data doc).1 = false ↔
      (doc.metadata = none ∨ doc.data = none ∨ doc.data = some [])) ∧
    (∀ (env : RestoreEnv) (sf : Option String),
      (validate_backup_data env.doc).1 = false →
      (restoreMain env sf).success = false ∧ (restoreMain env sf).writes = []) ∧
    (∀ (env : RestoreEnv) (meta : Meta) (entries : List (String × Entry))
      (tasks : List RestoreTask) (tf : List String),
      env.backupExists = true → env.envOk = true → env.clientOk = true →
      env.doc.metadata = some meta → env.doc.data = some entries → entries ≠ [] →
      buildTasks meta.tables (mergeIncremental env.store meta entries) = .ok (tasks, tf) →
      (restoreRun env true).success = true) := by
  refine ⟨?_, ?_, ?_⟩
  · intro doc
    cases hm : doc.metadata with
    | none => simp [validate_backup_data, hm]
    | some m =>
      cases hd : doc.data with
      | none => simp [validate_backup_data, hm, hd, dataTruthy]
      | some es =>
        cases es with
        | nil => simp [validate_backup_data, hm, hd, dataTruthy]
        | cons e es' => simp [validate_backup_data, hm, hd, dataTruthy]
  · intro env sf hval
    by_cases hc : env.clientOk
    · simp [restoreMain, hc, hval, failedRun]
    · simp [restoreMain, hc, failedRun]
  · intro env meta entries tasks tf h1 h2 h3 hmeta hdata hne hb
    have hval : (validate_backup_data env.doc).1 = true := by
      simp [validate_backup_data, hmeta, hdata, dataTruthy, List.isEmpty_iff, hne]
    unfold restoreRun
    rw [h1, h2]
    simp only [Bool.not_true, Bool.false_eq_true, if_false, if_true]
    unfold restoreMain
    rw [h3]
    simp only [Bool.not_true, Bool.false_eq_true, if_false, hval]
    rw [hmeta, hdata]
    dsimp only
    rw [hb]

/-- Witness for C7: a document with warnings (all critical tables absent)
but intact sections restores successfully, and the invalidity
characterization evaluates at a concrete document. -/
theorem c7_witness :
    (restoreRun w7env true).success = true ∧
    ((validate_backup_data ⟨none, none⟩).1 = false ↔
      ((⟨none, none⟩ : BackupDoc).metadata = none ∨
        (⟨none, none⟩ : BackupDoc).data = none ∨
        (⟨none, none⟩ : BackupDoc).data = some [])) :=
  ⟨c7_validation_amended.2.2 w7env ⟨"T1", "full", none, ["t1"]⟩
      [("t1", .materialized [[("id", .vint 1)]])]
      [("t1", [[("id", .vint 1)]], [])] [] rfl rfl rfl rfl rfl (by decide) rfl,
    c7_validation_amended.1 ⟨none, none⟩⟩

/-! ## C8: write-back batching and escalation -/

theorem rowFallbackStep_spec (c : WriteClient) (t : String) (cols : List String)
    (acc : BatchResult × List WriteOp) (row : Row) :
    (rowFallbackStep c t cols acc row).2 = acc.2 ++ rowOps c t cols row ∧
    (rowFallbackStep c t cols acc row).1.errors =
      acc.1.errors + (if rowFallbackErr c t cols row then 1 else 0) ∧
    (rowFallbackStep c t cols acc row).1.updated =
      acc.1.updated + (if rowFallbackUpd c t cols row then 1 else 0) ∧
    (rowFallbackStep c t cols acc row).1.inserted =
      acc.1.inserted + (if rowFallbackIns c t row then 1 else 0) := by
  unfold rowFallbackStep rowOps rowFallbackErr rowFallbackUpd rowFallbackIns
  cases hs : c.single t row with
  | none => simp
  | some es =>
    by_cases hd : isDuplicateErr es
    · simp only [hd, if_true]
      cases hid : pyGet row "id" with
      | none => simp
      | some v =>
        by_cases ht : truthyV v
        · simp only [ht, if_true]
          cases hu : c.updateR t v (filterRow cols row) <;> simp
        · simp [ht]
    · by_cases hg : isGeneratedErr es <;> simp [hd, hg]

theorem foldl_rowFallback_snd (c : WriteClient) (t : String) (cols : List String)
    (rows : List Row) :
    ∀ acc : BatchResult × List WriteOp,
      (rows.foldl (rowFallbackStep c t cols) acc).2 =
        acc.2 ++ (rows.map (rowOps c t cols)).flatten := by
  induction rows with
  | nil => intro acc; simp
  | cons r rs ih =>
    intro acc
    rw [List.foldl_cons, ih, (rowFallbackStep_spec c t cols acc r).1]
    simp [List.append_assoc]

theorem foldl_rowFallback_errors (c : WriteClient) (t : String) (cols : List String)
    (rows : List Row) :
    ∀ acc : BatchResult × List WriteOp,
      (rows.foldl (rowFallbackStep c t cols) acc).1.errors =
        acc.1.errors + (rows.filter (rowFallbackErr c t cols)).length := by
  induction rows with
  | nil => intro acc; simp
  | cons r rs ih =>
    intro acc
    rw [List.foldl_cons, ih, (rowFallbackStep_spec c t cols acc r).2.1]
    by_cases h : rowFallbackErr c t cols r <;> simp [List.filter_cons, h] <;> omega

theorem foldl_rowFallback_updated (c : WriteClient) (t : String) (cols : List String)
    (rows : List Row) :
    ∀ acc : BatchResult × List WriteOp,
      (rows.foldl (rowFallbackStep c t cols) acc).1.updated =
        acc.1.updated + (rows.filter (rowFallbackUpd c t cols)).length := by
  induction rows with
  | nil => intro acc; simp
  | cons r rs ih =>
    intro acc
    rw [List.foldl_cons, ih, (rowFallbackStep_spec c t cols acc r).2.2.1]
    by_cases h : rowFallbackUpd c t cols r <;> simp [List.filter_cons, h] <;> omega

theorem chunksGo_join {α : Type} (n : Nat) (hn : 0 < n) :
    ∀ (fuel : Nat) (l : List α), l.length ≤ fuel → (chunksGo n fuel l).flatten = l := by
  intro fuel
  induction fuel with
  | zero =>
    intro l hl
    have : l = [] := List.length_eq_zero.mp (Nat.le_zero.mp hl)
    subst this
    rfl
  | succ f ih =>
    intro l hl
    cases l with
    | nil => rfl
    | cons a l' =>
      simp only [chunksGo, List.flatten_cons]
      rw [ih ((a :: l').drop n) (by simp [List.length_drop] at hl ⊢; omega)]
      exact List.take_append_drop n (a :: l')

theorem chunksGo_mem {α : Type} (n : Nat) (hn : 0 < n) :
    ∀ (fuel : Nat) (l : List α) (b : List α), l.length ≤ fuel →
      b ∈ chunksGo n fuel l → b ≠ [] ∧ b.length ≤ n := by
  intro fuel
  induction fuel with
  | zero =>
    intro l b hl hb
    have : l = [] := List.length_eq_zero.mp (Nat.le_zero.mp hl)
    subst this
    simp [chunksGo] at hb
  | succ f ih =>
    intro l b hl hb
    cases l with
    | nil => simp [chunksGo] at hb
    | cons a l' =>
      have hb2 : b = (a :: l').take n ∨ b ∈ chunksGo n f ((a :: l').drop n) := by
        simpa [chunksGo] using hb
      rcases hb2 with rfl | hb2
      · constructor
        · cases n with
          | zero => omega
          | succ m => simp
        · simpa using List.length_take_le n (a :: l')
      · exact ih ((a :: l').drop n) b (by simp [List.length_drop] at *; omega) hb2

theorem rowOps_upsert_mem (c : WriteClient) (t : String) (cols : List String)
    (row : Row) : WriteOp.upsertRow t row ∈ rowOps c t cols row := by
  unfold rowOps
  cases hs : c.single t row
  · simp
  · rename_i es
    by_cases hd : isDuplicateErr es
    · simp only [hd, if_true]
      cases hid : pyGet row "id"
      · simp
      · rename_i v
        by_cases ht : truthyV v <;> simp [ht]
    · simp [hd]

/-- C8 amended: table rows are split into batches of `DEFAULT_BATCH_SIZE`
(the partition is lossless and every batch is non-empty and within the
size bound); each batch is first written with one bulk upsert; when the
bulk upsert raises, every row of the filtered batch is upserted
individually; a per-row duplicate-key-class error leads to an
update-by-id, but only when the row's id is TRUTHY — rows whose id is
missing OR falsy (0, empty string, null) increment the error count
rather than being updated or silently dropped. -/
theorem c8_write_escalation :
    (∀ (rows : List Row), (chunks DEFAULT_BATCH_SIZE rows).flatten = rows ∧
      ∀ b ∈ chunks DEFAULT_BATCH_SIZE rows, b ≠ [] ∧ b.length ≤ DEFAULT_BATCH_SIZE) ∧
    (∀ (client : WriteClient) (t : String) (batch : List Row) (cols : List String),
      (restore_table_batch client t batch cols).2.head? =
        some (.upsertBatch t (batch.map (filterRow cols))) ∧
      (client.bulk t (batch.map (filterRow cols)) = none →
        restore_table_batch client t batch cols =
          (⟨(batch.map (filterRow cols)).length, 0, 0, []⟩,
            [.upsertBatch t (batch.map (filterRow cols))])) ∧
      (∀ e, client.bulk t (batch.map (filterRow cols)) = some e →
        (∀ row ∈ batch.map (filterRow cols),
          WriteOp.upsertRow t row ∈ (restore_table_batch client t batch cols).2) ∧
        (∀ row ∈ batch.map (filterRow cols), ∀ es v,
          client.single t row = some es → isDuplicateErr es = true →
          pyGet row "id" = some v → truthyV v = true →
          WriteOp.updateRow t v (filterRow cols row) ∈
            (restore_table_batch client t batch cols).2) ∧
        (restore_table_batch client t batch cols).1.errors =
          ((batch.map (filterRow cols)).filter (rowFallbackErr client t cols)).length ∧
        (restore_table_batch client t batch cols).1.updated =
          ((batch.map (filterRow cols)).filter (rowFallbackUpd client t cols)).length ∧
        (∀ row es, client.single t row = some es → isDuplicateErr es = true →
          truthyO (pyGet row "id") = false →
          rowFallbackErr client t cols row = true))) := by
  constructor
  · intro rows
    exact ⟨chunksGo_join DEFAULT_BATCH_SIZE (by decide) rows.length rows le_rfl,
      fun b hb => chunksGo_mem DEFAULT_BATCH_SIZE (by decide) rows.length rows b le_rfl hb⟩
  · intro client t batch cols
    refine ⟨?_, ?_, ?_⟩
    · unfold restore_table_batch
      dsimp only
      cases hbulk : client.bulk t (batch.map (filterRow cols))
      · rfl
      · rw [foldl_rowFallback_snd]
        rfl
    · intro hbulk
      unfold restore_table_batch
      dsimp only
      rw [hbulk]
    · intro e hbulk
      have hsnd : (restore_table_batch client t batch cols).2 =
          .upsertBatch t (batch.map (filterRow cols)) ::
            ((batch.map (filterRow cols)).map (rowOps client t cols)).flatten := by
        unfold restore_table_batch
        dsimp only
        rw [hbulk, foldl_rowFallback_snd]
        rfl
      refine ⟨?_, ?_, ?_, ?_, ?_⟩
      · intro row hrow
        rw [hsnd]
        refine List.mem_cons_of_mem _ (List.mem_flatten.mpr ?_)
        exact ⟨rowOps client t cols row, List.mem_map_of_mem _ hrow,
          rowOps_upsert_mem client t cols row⟩
      · intro row hrow es v hs hd hid ht
        rw [hsnd]
        refine List.mem_cons_of_mem _ (List.mem_flatten.mpr ?_)
        refine ⟨rowOps client t cols row, List.mem_map_of_mem _ hrow, ?_⟩
        unfold rowOps
        rw [hs, hid]
        simp [hd, ht]
      · unfold restore_table_batch
        dsimp only
        rw [hbulk, foldl_rowFallback_errors]
        simp
      · unfold restore_table_batch
        dsimp only
        rw [hbulk, foldl_rowFallback_updated]
        simp
      · intro row es hs hd ht
        unfold rowFallbackErr
        rw [hs]
        simp only [hd, if_true]
        cases hid : pyGet row "id"
        · rfl
        · rename_i v
          rw [hid] at ht
          simp only [truthyO] at ht
          simp [ht]

/-- C8 counterexample: a row that DOES carry an `id` (the falsy integer 0)
and whose individual upsert fails with a duplicate-key error is NOT
updated by its id — no update operation is issued — and is counted as an
error instead, because the fallback tests Python truthiness of the id, not
its presence. -/
theorem c8_counterexample :
    pyGet cex8row "id" = some (.vint 0) ∧
    isDuplicateErr "duplicate key value violates unique constraint 23505" = true ∧
    ((restore_table_batch cex8client "t" [cex8row] []).2.filter WriteOp.isUpdateRow) = [] ∧
    (restore_table_batch cex8client "t" [cex8row] []).1.errors = 1 ∧
    (restore_table_batch cex8client "t" [cex8row] []).1.updated = 0 := by
  refine ⟨rfl, by decide, by decide, by decide, by decide⟩

/-- Witness for C8: on a failing bulk upsert over three rows — one that
upserts individually, one that hits a duplicate error and is updated by
its id, one without id that hits a duplicate error — every row is
individually upserted, the update-by-id is issued for the identified row,
and the no-id row is counted in `errors`. -/
theorem c8_witness :
    (chunks DEFAULT_BATCH_SIZE [w8rowA]).flatten = [w8rowA] ∧
    (∀ row ∈ w8batch.map (filterRow []),
      WriteOp.upsertRow "t" row ∈ (restore_table_batch w8client "t" w8batch []).2) ∧
    WriteOp.updateRow "t" (.vint 2) (filterRow [] w8rowB) ∈
      (restore_table_batch w8client "t" w8batch []).2 ∧
    (restore_table_batch w8client "t" w8batch []).1.errors = 1 ∧
    (restore_table_batch w8client "t" w8batch []).1.updated = 1 :=
  ⟨(c8_write_escalation.1 [w8rowA]).1,
    ((c8_write_escalation.2 w8client "t" w8batch []).2.2 "bulk conflict" rfl).1,
    ((c8_write_escalation.2 w8client "t" w8batch []).2.2 "bulk conflict" rfl).2.1
      (filterRow [] w8rowB) (by decide)
      "duplicate key value violates unique constraint 23505" (.vint 2)
      (by decide) (by decide) (by decide) (by decide),
    (((c8_write_escalation.2 w8client "t" w8batch []).2.2 "bulk conflict" rfl).2.2.1).trans
      (by decide),
    (((c8_write_escalation.2 w8client "t" w8batch []).2.2 "bulk conflict" rfl).2.2.2.1).trans
      (by decide)⟩

/-! ## C9: retention pruning -/

theorem foldl_filter_summaries (del : List BFile) :
    ∀ (summ : List String) (s : String),
      s ∈ del.foldl
        (fun acc f => acc.filter (fun x => !(x = summaryName f.name : Bool))) summ ↔
      (s ∈ summ ∧ ∀ g ∈ del, s ≠ summaryName g.name) := by
  induction del with
  | nil => intro summ s; simp
  | cons f fs ih =>
    intro summ s
    rw [List.foldl_cons, ih]
    simp only [List.mem_filter, List.mem_cons]
    constructor
    · rintro ⟨⟨hs, hne⟩, hall⟩
      refine ⟨hs, ?_⟩
      intro g hg
      rcases hg with rfl | hg
      · simpa using hne
      · exact hall g hg
    · rintro ⟨hs, hall⟩
      exact ⟨⟨hs, by simpa using hall f (Or.inl rfl)⟩, fun g hg => hall g (Or.inr hg)⟩

/-- C9 amended: with keep-count `N` smaller than the number of backup
files (all with distinct mtimes), exactly the `N` newest files survive and
every deleted file is strictly older than every survivor; the deleted
files' summary artifacts are removed alongside them; and the default
keep-count is 288, which covers 24 hours at a 5-minute cadence.  However —
and this is where the claim fails — pruning is purely count-based: a
surviving snapshot's `Unchanged` reference CAN point to a deleted ancestor
that is still needed (see the counterexample). -/
theorem c9_retention_amended (files : List BFile) (summaries : List String)
    (keep : Nat) (hnd : (files.map BFile.mtime).Nodup)
    (hkeep : keep < files.length) :
    (cleanup_old_backups files summaries keep).1.length = keep ∧
    (∀ f ∈ (cleanup_old_backups files summaries keep).1, f ∈ files) ∧
    (∀ f ∈ (cleanup_old_backups files summaries keep).1,
      ∀ g ∈ files, g ∉ (cleanup_old_backups files summaries keep).1 →
        g.mtime < f.mtime) ∧
    (∀ s, s ∈ (cleanup_old_backups files summaries keep).2 ↔
      (s ∈ summaries ∧ ∀ g ∈ files,
        g ∉ (cleanup_old_backups files summaries keep).1 → s ≠ summaryName g.name)) ∧
    DEFAULT_KEEP_COUNT = 288 ∧ DEFAULT_KEEP_COUNT * 5 = 24 * 60 := by
  have hperm : List.Perm (sortByMtimeDesc files) files := List.perm_insertionSort _ _
  have hlen : (sortByMtimeDesc files).length = files.length := hperm.length_eq
  have hsorted : (sortByMtimeDesc files).Sorted mtimeGe :=
    List.sorted_insertionSort _ _
  have hndmap : ((sortByMtimeDesc files).map BFile.mtime).Nodup :=
    (hperm.map BFile.mtime).nodup_iff.mpr hnd
  have hnds : (sortByMtimeDesc files).Nodup := hndmap.of_map
  have hcond : keep < (sortByMtimeDesc files).length := by rw [hlen]; exact hkeep
  have hout : cleanup_old_backups files summaries keep =
      ((sortByMtimeDesc files).take keep,
        ((sortByMtimeDesc files).drop keep).foldl
          (fun acc f => acc.filter (fun x => !(x = summaryName f.name : Bool))) summaries) := by
    unfold cleanup_old_backups
    rw [if_pos hcond]
  have hsplit : (sortByMtimeDesc files).take keep ++ (sortByMtimeDesc files).drop keep =
      sortByMtimeDesc files := List.take_append_drop keep (sortByMtimeDesc files)
  have hmemdrop : ∀ g, g ∈ files → g ∉ (sortByMtimeDesc files).take keep →
      g ∈ (sortByMtimeDesc files).drop keep := by
    intro g hg hnt
    have : g ∈ sortByMtimeDesc files := hperm.mem_iff.mpr hg
    rw [← hsplit] at this
    rcases List.mem_append.mp this with h | h
    · exact absurd h hnt
    · exact h
  have hdropmem : ∀ g, g ∈ (sortByMtimeDesc files).drop keep → g ∈ files := by
    intro g hg
    exact hperm.mem_iff.mp (List.mem_of_mem_drop hg)
  have hdropnot : ∀ g, g ∈ (sortByMtimeDesc files).drop keep →
      g ∉ (sortByMtimeDesc files).take keep := by
    intro g hg ht
    have hnd2 : ((sortByMtimeDesc files).take keep ++
        (sortByMtimeDesc files).drop keep).Nodup := by rw [hsplit]; exact hnds
    rcases List.nodup_append.mp hnd2 with ⟨_, _, hdisj⟩
    exact hdisj ht hg
  have hlt : ∀ f ∈ (sortByMtimeDesc files).take keep,
      ∀ g ∈ (sortByMtimeDesc files).drop keep, g.mtime < f.mtime := by
    intro f hf g hg
    have hpw : ((sortByMtimeDesc files).take keep ++
        (sortByMtimeDesc files).drop keep).Pairwise mtimeGe := by
      rw [hsplit]; exact hsorted
    have hle : mtimeGe f g := (List.pairwise_append.mp hpw).2.2 f hf g hg
    have hne : f.mtime ≠ g.mtime := by
      have := List.pairwise_map.mp hndmap
      have hpw2 : ((sortByMtimeDesc files).take keep ++
          (sortByMtimeDesc files).drop keep).Pairwise
            (fun a b => BFile.mtime a ≠ BFile.mtime b) := by
        rw [hsplit]; exact this
      exact (List.pairwise_append.mp hpw2).2.2 f hf g hg
    exact lt_of_le_of_ne hle (fun h => hne h.symm)
  refine ⟨?_, ?_, ?_, ?_, rfl, rfl⟩
  · rw [hout]
    simp [List.length_take, hlen]
    omega
  · intro f hf
    rw [hout] at hf
    exact hperm.mem_iff.mp (List.mem_of_mem_take hf)
  · intro f hf g hg hgn
    rw [hout] at hf hgn
    exact hlt f hf g (hmemdrop g hg hgn)
  · intro s
    rw [hout]
    rw [foldl_filter_summaries]
    constructor
    · rintro ⟨hs, hall⟩
      refine ⟨hs, ?_⟩
      intro g hg hgn
      exact hall g (hmemdrop g hg hgn)
    · rintro ⟨hs, hall⟩
      refine ⟨hs, ?_⟩
      intro g hg
      exact hall g (hdropmem g hg) (hdropnot g hg)

/-- C9 counterexample: pruning two backups down to one deletes S1 even
though the surviving S2 still references it: before pruning, S2's table
resolves to S1's rows; after pruning, the reference dangles and the table
resolves to nothing.  The pruning is purely count-based and violates the
claim's no-dangling-reference part. -/
theorem c9_counterexample :
    cleanup_old_backups [c9f1, c9f2]
        ["backup_summary_T1.json", "backup_summary_T2.json"] 1 =
      ([c9f2], ["backup_summary_T2.json"]) ∧
    c9s2.data.lookup "users" = some (.unchanged "T1" c9h) ∧
    effectiveRows c9storeBefore c9s2 "users" = some c9rows ∧
    effectiveRows c9storeAfter c9s2 "users" = none := by
  refine ⟨by decide, rfl, by decide, by decide⟩

/-- Witness for C9 at two concrete files with keep-count 1. -/
theorem c9_witness :
    (cleanup_old_backups [c9f1, c9f2]
      ["backup_summary_T1.json", "backup_summary_T2.json"] 1).1.length = 1 ∧
    c9f1.mtime < c9f2.mtime ∧
    DEFAULT_KEEP_COUNT = 288 ∧ DEFAULT_KEEP_COUNT * 5 = 24 * 60 :=
  ⟨(c9_retention_amended [c9f1, c9f2]
      ["backup_summary_T1.json", "backup_summary_T2.json"] 1 (by decide) (by decide)).1,
    (c9_retention_amended [c9f1, c9f2]
      ["backup_summary_T1.json", "backup_summary_T2.json"] 1 (by decide) (by decide)).2.2.1
      c9f2 (by decide) c9f1 (by decide) (by decide),
    (c9_retention_amended [c9f1, c9f2]
      ["backup_summary_T1.json", "backup_summary_T2.json"] 1 (by decide) (by decide)).2.2.2.2.1,
    (c9_retention_amended [c9f1, c9f2]
      ["backup_summary_T1.json", "backup_summary_T2.json"] 1 (by decide) (by decide)).2.2.2.2.2⟩

/-! ## C10: restore never deletes -/

theorem rowOps_shape {c : WriteClient} {t : String} {cols : List String}
    {row : Row} {op : WriteOp} (h : op ∈ rowOps c t cols row) :
    op.table = t ∧ op.isDelete = false := by
  unfold rowOps at h
  rcases hs : c.single t row with _ | es <;> rw [hs] at h <;> dsimp only at h
  · simp only [List.mem_singleton] at h
    subst h
    exact ⟨rfl, rfl⟩
  · by_cases hd : isDuplicateErr es
    · simp only [hd, if_true] at h
      rcases hid : pyGet row "id" with _ | v <;> rw [hid] at h <;> dsimp only at h
      · simp only [List.mem_singleton] at h
        subst h
        exact ⟨rfl, rfl⟩
      · by_cases ht : truthyV v
        · simp only [ht, if_true, List.mem_cons, List.mem_singleton,
            List.not_mem_nil, or_false] at h
          rcases h with rfl | rfl
          · exact ⟨rfl, rfl⟩
          · exact ⟨rfl, rfl⟩
        · simp only [ht, Bool.false_eq_true, if_false, List.mem_singleton] at h
          subst h
          exact ⟨rfl, rfl⟩
    · simp only [hd, Bool.false_eq_true, if_false, List.mem_singleton] at h
      subst h
      exact ⟨rfl, rfl⟩

theorem restore_table_batch_shape {c : WriteClient} {t : String}
    {batch : List Row} {cols : List String} {op : WriteOp}
    (h : op ∈ (restore_table_batch c t batch cols).2) :
    op.table = t ∧ op.isDelete = false := by
  unfold restore_table_batch at h
  dsimp only at h
  rcases hb : c.bulk t (batch.map (filterRow cols)) with _ | e <;> rw [hb] at h
  · simp only [List.mem_singleton] at h
    subst h
    exact ⟨rfl, rfl⟩
  · rw [foldl_rowFallback_snd] at h
    rcases List.mem_append.mp h with h | h
    · simp only [List.mem_singleton] at h
      subst h
      exact ⟨rfl, rfl⟩
    · rcases List.mem_flatten.mp h with ⟨l, hl, hop⟩
      rcases List.mem_map.mp hl with ⟨row, _, rfl⟩
      exact rowOps_shape hop

theorem runTasks_mem {c : WriteClient} {tasks : List RestoreTask} {op : WriteOp}
    (h : op ∈ (runTasks c tasks).2) :
    ∃ task ∈ tasks, op ∈ (restore_table_batch c task.1 task.2.1 task.2.2).2 := by
  induction tasks with
  | nil => simp [runTasks] at h
  | cons task rest ih =>
    unfold runTasks at h
    rcases List.mem_append.mp h with h | h
    · exact ⟨task, List.mem_cons_self _ _, h⟩
    · rcases ih h with ⟨task2, hmem, hop⟩
      exact ⟨task2, List.mem_cons_of_mem _ hmem, hop⟩

/-- The writes of a restore run are exactly those of the scheduled tasks
(or none at all, when any gate fails). -/
theorem restoreRun_writes (env : RestoreEnv) (skip : Bool) :
    (restoreRun env skip).writes = [] ∨
    ∃ meta entries tasks tf,
      env.doc.metadata = some meta ∧ env.doc.data = some entries ∧
      buildTasks meta.tables (mergeIncremental env.store meta entries) =
        .ok (tasks, tf) ∧
      (restoreRun env skip).writes = (runTasks env.client tasks).2 := by
  have hmain : ∀ sf, (restoreMain env sf).writes = [] ∨
      ∃ meta entries tasks tf,
        env.doc.metadata = some meta ∧ env.doc.data = some entries ∧
        buildTasks meta.tables (mergeIncremental env.store meta entries) =
          .ok (tasks, tf) ∧
        (restoreMain env sf).writes = (runTasks env.client tasks).2 := by
    intro sf
    unfold restoreMain
    by_cases hc : env.clientOk
    · simp only [hc, Bool.not_true, Bool.false_eq_true, if_false]
      by_cases hv : (validate_backup_data env.doc).1
      · simp only [hv, Bool.not_true, Bool.false_eq_true, if_false]
        rcases hm : env.doc.metadata with _ | meta
        · left; rfl
        · rcases hd : env.doc.data with _ | entries
          · left; rfl
          · dsimp only
            rcases hb : buildTasks meta.tables
              (mergeIncremental env.store meta entries) with e | r
            · left; rfl
            · obtain ⟨tasks, tf⟩ := r
              right
              exact ⟨meta, entries, tasks, tf, rfl, rfl, hb, rfl⟩
      · left
        simp [hv, failedRun]
    · left
      simp [hc, failedRun]
  unfold restoreRun
  by_cases h1 : env.backupExists
  · by_cases h2 : env.envOk
    · simp only [h1, h2, Bool.not_true, Bool.false_eq_true, if_false]
      cases skip with
      | false =>
        simp only [Bool.not_false, if_true]
        rcases hs : env.safety with _ | sf
        · left; rfl
        · exact hmain (some sf)
      | true =>
        simp only [Bool.not_true, Bool.false_eq_true, if_false]
        exact hmain none
    · left; simp [h1, h2, failedRun]
  · left; simp [h1, failedRun]

theorem touchedIds_cons (op : WriteOp) (ops : List WriteOp) (t : String) :
    touchedIds (op :: ops) t = touchedIds [op] t ++ touchedIds ops t := by
  cases op <;> unfold touchedIds <;> simp only [List.foldr] <;> split <;> simp

theorem upsertOne_preserve {rows : List Row} {r row : Row}
    (hr : r ∈ rows)
    (hid : ∀ v, pyGet r "id" = some v → pyGet row "id" ≠ some v) :
    r ∈ upsertOne rows row := by
  unfold upsertOne
  rcases hrow : pyGet row "id" with _ | v <;> dsimp only
  · exact List.mem_append_left _ hr
  · by_cases hany : rows.any (fun x => pyGet x "id" = some v)
    · rw [if_pos hany]
      have hcond : ¬(pyGet r "id" = some v) := by
        intro hc
        exact hid v hc hrow
      have : (fun x => if pyGet x "id" = some v then row else x) r = r :=
        if_neg hcond
      rw [← this]
      exact List.mem_map_of_mem _ hr
    · rw [if_neg hany]
      exact List.mem_append_left _ hr

theorem foldl_upsertOne_preserve {rs : List Row} {r : Row} :
    ∀ rows0 : List Row, r ∈ rows0 →
      (∀ row ∈ rs, ∀ v, pyGet r "id" = some v → pyGet row "id" ≠ some v) →
      r ∈ rs.foldl upsertOne rows0 := by
  induction rs with
  | nil => intro rows0 hr _; exact hr
  | cons row rest ih =>
    intro rows0 hr hall
    rw [List.foldl_cons]
    exact ih (upsertOne rows0 row)
      (upsertOne_preserve hr (fun v hv => hall row (List.mem_cons_self _ _) v hv))
      (fun row2 h2 v hv => hall row2 (List.mem_cons_of_mem _ h2) v hv)

theorem applyOp_preserve {s : RemoteStore} {op : WriteOp} {t : String} {r : Row}
    (hr : r ∈ s t)
    (hid : ∀ v, pyGet r "id" = some v → v ∉ touchedIds [op] t) :
    r ∈ applyOp s op t := by
  cases op with
  | upsertBatch t2 rs =>
    unfold applyOp
    dsimp only
    by_cases ht : t = t2
    · rw [if_pos ht]
      subst ht
      refine foldl_upsertOne_preserve (s t) hr ?_
      intro row hrow v hv hcontra
      have : v ∈ touchedIds [WriteOp.upsertBatch t rs] t := by
        unfold touchedIds
        simp only [List.foldr, if_true, List.append_nil]
        exact List.mem_filterMap.mpr ⟨row, hrow, hcontra⟩
      exact hid v hv this
    · rw [if_neg ht]; exact hr
  | upsertRow t2 row =>
    unfold applyOp
    dsimp only
    by_cases ht : t = t2
    · rw [if_pos ht]
      subst ht
      refine upsertOne_preserve hr ?_
      intro v hv hcontra
      have : v ∈ touchedIds [WriteOp.upsertRow t row] t := by
        unfold touchedIds
        simp only [List.foldr, if_true]
        simp [hcontra, Option.toList]
      exact hid v hv this
    · rw [if_neg ht]; exact hr
  | updateRow t2 v2 row =>
    unfold applyOp
    dsimp only
    by_cases ht : t = t2
    · rw [if_pos ht]
      subst ht
      have hcond : ¬(pyGet r "id" = some v2) := by
        intro hc
        refine hid v2 hc ?_
        unfold touchedIds
        simp only [List.foldr, if_true]
        simp
      have : (fun x => if pyGet x "id" = some v2 then pyMergeRow x row else x) r = r :=
        if_neg hcond
      rw [← this]
      exact List.mem_map_of_mem _ hr
    · rw [if_neg ht]; exact hr
  | deleteRow t2 v2 =>
    unfold applyOp
    dsimp only
    by_cases ht : t = t2
    · rw [if_pos ht]
      subst ht
      refine List.mem_filter.mpr ⟨hr, ?_⟩
      have hcond : ¬(pyGet r "id" = some v2) := by
        intro hc
        refine hid v2 hc ?_
        unfold touchedIds
        simp only [List.foldr, if_true]
        simp
      simp [hcond]
    · rw [if_neg ht]; exact hr

theorem applyWrites_preserve {t : String} {r : Row} :
    ∀ (ops : List WriteOp) (s : RemoteStore), r ∈ s t →
      (∀ v, pyGet r "id" = some v → v ∉ touchedIds ops t) →
      r ∈ applyWrites s ops t := by
  intro ops
  induction ops with
  | nil => intro s hr _; exact hr
  | cons op rest ih =>
    intro s hr hid
    unfold applyWrites
    rw [List.foldl_cons]
    refine ih (applyOp s op) ?_ ?_
    · refine applyOp_preserve hr ?_
      intro v hv hmem
      refine hid v hv ?_
      rw [touchedIds_cons]
      exact List.mem_append_left _ hmem
    · intro v hv hmem
      refine hid v hv ?_
      rw [touchedIds_cons]
      exact List.mem_append_right _ hmem

/-- C10: a restore issues only upserts and updates (never the client's
delete), schedules no write at all for a table whose resolved entry is an
empty list, an unchanged marker or a backup-failed marker, and leaves
every remote row whose id the written rows never mention exactly as it
was. -/
theorem c10_no_deletes_frame :
    (∀ (env : RestoreEnv) (skip : Bool), ∀ op ∈ (restoreRun env skip).writes,
      op.isDelete = false) ∧
    (∀ (env : RestoreEnv) (skip : Bool) (t : String) (e : Entry),
      resolvedEntry env t = some e → entrySkipped e = true →
      ∀ op ∈ (restoreRun env skip).writes, op.table ≠ t) ∧
    (∀ (env : RestoreEnv) (skip : Bool) (s : RemoteStore) (t : String) (r : Row),
      r ∈ s t →
      (∀ v, pyGet r "id" = some v → v ∉ touchedIds (restoreRun env skip).writes t) →
      r ∈ applyWrites s (restoreRun env skip).writes t) := by
  refine ⟨?_, ?_, ?_⟩
  · intro env skip op hop
    rcases restoreRun_writes env skip with h | ⟨meta, entries, tasks, tf, _, _, hb, h⟩
    · rw [h] at hop; simp at hop
    · rw [h] at hop
      rcases runTasks_mem hop with ⟨task, _, hop2⟩
      exact (restore_table_batch_shape hop2).2
  · intro env skip t e hres hskip op hop heq
    rcases restoreRun_writes env skip with h | ⟨meta, entries, tasks, tf, hm, hd, hb, h⟩
    · rw [h] at hop; simp at hop
    · rw [h] at hop
      rcases runTasks_mem hop with ⟨task, htask, hop2⟩
      have htab : op.table = task.1 := (restore_table_batch_shape hop2).1
      rcases buildTasks_task_mem hb htask with ⟨rows, hrows, hne⟩
      have : resolvedEntry env task.1 = some (.materialized rows) := by
        unfold resolvedEntry
        rw [hm, hd]
        exact hrows
      have htt : task.1 = t := by rw [← htab, heq]
      rw [htt, hres] at this
      have he := Option.some.inj this
      subst he
      unfold entrySkipped at hskip
      rw [List.isEmpty_iff] at hskip
      exact hne hskip
  · intro env skip s t r hr hid
    exact applyWrites_preserve _ s hr hid

/-- Witness for C10 at a concrete environment with one written table, one
empty table and one failed table: no delete is issued, no write addresses
the skipped tables, and a foreign row with an untouched id survives. -/
theorem c10_witness :
    (∀ op ∈ (restoreRun w10env true).writes, op.isDelete = false) ∧
    (∀ op ∈ (restoreRun w10env true).writes, op.table ≠ "logs") ∧
    (∀ op ∈ (restoreRun w10env true).writes, op.table ≠ "tmp") ∧
    [("id", .vint 7)] ∈ applyWrites
      (fun _ => [[("id", Value.vint 7)]]) (restoreRun w10env true).writes "users" :=
  ⟨fun op hop => c10_no_deletes_frame.1 w10env true op hop,
    fun op hop => c10_no_deletes_frame.2.1 w10env true "logs" (.materialized [])
      rfl rfl op hop,
    fun op hop => c10_no_deletes_frame.2.1 w10env true "tmp" (.failed "boom")
      rfl rfl op hop,
    c10_no_deletes_frame.2.2 w10env true (fun _ => [[("id", Value.vint 7)]])
      "users" [("id", .vint 7)] (by decide) (by decide)⟩

/-! ## C3: fingerprint order-invariance -/

theorem char_toNat_inj {a b : Char} (h : a.toNat = b.toNat) : a = b :=
  Char.eq_of_val_eq (UInt32.eq_of_toBitVec_eq (BitVec.eq_of_toNat_eq h))

theorem charsLe_total : ∀ x y : List Char, charsLe x y = true ∨ charsLe y x = true
  | [], _ => Or.inl rfl
  | _ :: _, [] => Or.inr rfl
  | a :: as, b :: bs => by
    by_cases hab : a.toNat < b.toNat
    · left; simp [charsLe, hab]
    · by_cases hba : b.toNat < a.toNat
      · right; simp [charsLe, hba]
      · rcases charsLe_total as bs with h | h
        · left; simp [charsLe, hab, hba, h]
        · right; simp [charsLe, hab, hba, h]

theorem charsLe_trans : ∀ x y z : List Char,
    charsLe x y = true → charsLe y z = true → charsLe x z = true
  | [], _, _ => by intro _ _; rfl
  | _ :: _, [], _ => by intro h _; simp [charsLe] at h
  | _ :: _, _ :: _, [] => by intro _ h; simp [charsLe] at h
  | a :: as, b :: bs, c :: cs => by
    intro h1 h2
    simp only [charsLe] at h1 h2 ⊢
    by_cases hab : a.toNat < b.toNat
    · by_cases hbc : b.toNat < c.toNat
      · simp [show a.toNat < c.toNat by omega]
      · by_cases hcb : c.toNat < b.toNat
        · rw [if_neg hbc, if_pos hcb] at h2
          exact absurd h2 (by simp)
        · simp [show a.toNat < c.toNat by omega]
    · by_cases hba : b.toNat < a.toNat
      · rw [if_neg hab, if_pos hba] at h1
        exact absurd h1 (by simp)
      · by_cases hbc : b.toNat < c.toNat
        · simp [show a.toNat < c.toNat by omega]
        · by_cases hcb : c.toNat < b.toNat
          · rw [if_neg hbc, if_pos hcb] at h2
            exact absurd h2 (by simp)
          · rw [if_neg hab, if_neg hba] at h1
            rw [if_neg hbc, if_neg hcb] at h2
            rw [if_neg (show ¬ a.toNat < c.toNat by omega),
              if_neg (show ¬ c.toNat < a.toNat by omega)]
            exact charsLe_trans as bs cs h1 h2

theorem charsLe_antisymm : ∀ x y : List Char,
    charsLe x y = true → charsLe y x = true → x = y
  | [], [] => by intro _ _; rfl
  | [], _ :: _ => by intro _ h; simp [charsLe] at h
  | _ :: _, [] => by intro h _; simp [charsLe] at h
  | a :: as, b :: bs => by
    intro h1 h2
    simp only [charsLe] at h1 h2
    by_cases hab : a.toNat < b.toNat
    · simp [hab, Nat.lt_asymm hab] at h2
    · by_cases hba : b.toNat < a.toNat
      · simp [hab, hba] at h1
      · simp [hab, hba] at h1 h2
        have hc : a = b := char_toNat_inj (by omega)
        rw [hc, charsLe_antisymm as bs h1 h2]

theorem strLeB_total (a b : String) : strLeB a b = true ∨ strLeB b a = true :=
  charsLe_total a.toList b.toList

theorem strLeB_trans {a b c : String} (h1 : strLeB a b = true)
    (h2 : strLeB b c = true) : strLeB a c = true :=
  charsLe_trans a.toList b.toList c.toList h1 h2

theorem strLeB_antisymm {a b : String} (h1 : strLeB a b = true)
    (h2 : strLeB b a = true) : a = b := by
  have := charsLe_antisymm a.toList b.toList h1 h2
  exact String.ext this

theorem valueLeB_total : ∀ x y : Value, valueLeB x y = true ∨ valueLeB y x = true := by
  intro x y
  cases x <;> cases y <;> simp [valueLeB, valueRank]
  · exact Int.le_total _ _
  · exact strLeB_total _ _

theorem valueLeB_trans : ∀ x y z : Value,
    valueLeB x y = true → valueLeB y z = true → valueLeB x z = true := by
  intro x y z h1 h2
  cases x <;> cases y <;> cases z <;>
    simp_all [valueLeB, valueRank]
  · exact Int.le_trans h1 h2
  · exact strLeB_trans h1 h2

theorem valueLeB_antisymm : ∀ x y : Value,
    valueLeB x y = true → valueLeB y x = true → x = y := by
  intro x y h1 h2
  cases x <;> cases y <;> simp_all [valueLeB, valueRank]
  · exact Int.le_antisymm h1 h2
  · exact strLeB_antisymm h1 h2

theorem sorted_nodup_key_unique {l₁ l₂ : List Row} (hp : List.Perm l₁ l₂)
    (hs₁ : l₁.Sorted rowLe) (hs₂ : l₂.Sorted rowLe)
    (hnd : (l₁.map sortKey).Nodup) : l₁ = l₂ := by
  haveI : IsAntisymm Row rowLeStrict := ⟨by
    rintro a b ⟨hab, hab2⟩ ⟨hba, hba2⟩
    have hk : sortKey a = sortKey b := valueLeB_antisymm _ _ hab hba
    rcases hab2 with h | h
    · exact h
    · exact absurd hk h⟩
  have hnd₂ : (l₂.map sortKey).Nodup := ((hp.map sortKey).nodup_iff).mp hnd
  have hpw₁ : l₁.Pairwise (fun a b => sortKey a ≠ sortKey b) := List.pairwise_map.mp hnd
  have hpw₂ : l₂.Pairwise (fun a b => sortKey a ≠ sortKey b) := List.pairwise_map.mp hnd₂
  have hs₁s : l₁.Sorted rowLeStrict :=
    (hs₁.and hpw₁).imp (fun h => ⟨h.1, Or.inr h.2⟩)
  have hs₂s : l₂.Sorted rowLeStrict :=
    (hs₂.and hpw₂).imp (fun h => ⟨h.1, Or.inr h.2⟩)
  exact List.eq_of_perm_of_sorted hp hs₁s hs₂s

/-- C3 amended: the content fingerprint is invariant to row ordering when
every row's sort key has one comparable type (all integer ids, or all
string ids / string fallbacks for rows lacking an id) and no two distinct
rows share a sort key; for mixed-type identifiers Python's `sorted` raises
`TypeError`, the bare `except` keeps the input order, and a permutation
can change the fingerprint (see the counterexample). -/
theorem c3_hash_perm_invariant (R S : List Row) (hp : List.Perm R S)
    (hhom : R.all keyIsInt = true ∨ R.all keyIsStr = true)
    (hnd : (R.map sortKey).Nodup) :
    calculate_table_hash R = calculate_table_hash S := by
  have hcmpR : keysComparable R = true := by
    unfold keysComparable
    rcases hhom with h | h <;> simp [h]
  have hcmpS : keysComparable S = true := by
    unfold keysComparable
    rcases hhom with h | h
    · have : S.all keyIsInt = true := by
        rw [List.all_eq_true] at h ⊢
        intro x hx
        exact h x (hp.mem_iff.mpr hx)
      simp [this]
    · have : S.all keyIsStr = true := by
        rw [List.all_eq_true] at h ⊢
        intro x hx
        exact h x (hp.mem_iff.mpr hx)
      simp [this]
  haveI : IsTotal Row rowLe := ⟨fun a b => valueLeB_total (sortKey a) (sortKey b)⟩
  haveI : IsTrans Row rowLe := ⟨fun _ _ _ h1 h2 => valueLeB_trans _ _ _ h1 h2⟩
  have hsorteq : pySortRows R = pySortRows S := by
    unfold pySortRows
    rw [hcmpR, hcmpS]
    simp only [if_true]
    have hperm : List.Perm (List.insertionSort rowLe R) (List.insertionSort rowLe S) :=
      ((List.perm_insertionSort rowLe R).trans hp).trans
        (List.perm_insertionSort rowLe S).symm
    have hndsorted : ((List.insertionSort rowLe R).map sortKey).Nodup :=
      (((List.perm_insertionSort rowLe R).map sortKey).nodup_iff).mpr hnd
    exact sorted_nodup_key_unique hperm
      (List.sorted_insertionSort rowLe R) (List.sorted_insertionSort rowLe S) hndsorted
  unfold calculate_table_hash
  rw [hsorteq]
  have he : R.isEmpty = S.isEmpty := by
    cases R with
    | nil => rw [← hp.nil_eq]
    | cons x xs =>
      cases S with
      | nil => exact absurd hp.symm.nil_eq (by simp)
      | cons y ys => rfl
  rw [he]

/-- C3 counterexample: two rows with mixed-type identifiers (an integer id
and a string id).  Swapping them is a permutation, yet the fingerprints
differ: the sort key comparison raises `TypeError`, the bare `except`
falls back to the input order, and the serialized (hashed) structure
follows that order. -/
theorem c3_counterexample :
    List.Perm [c3r1, c3r2] [c3r2, c3r1] ∧
    calculate_table_hash [c3r1, c3r2] ≠ calculate_table_hash [c3r2, c3r1] :=
  ⟨List.Perm.swap c3r2 c3r1 [], by decide⟩

/-- Witness for C3 at a concrete homogeneous two-row table. -/
theorem c3_witness :
    calculate_table_hash [c3wA, c3wB] = calculate_table_hash [c3wB, c3wA] :=
  c3_hash_perm_invariant [c3wA, c3wB] [c3wB, c3wA] (List.Perm.swap c3wB c3wA [])
    (Or.inl (by decide)) (by decide)

end SupabaseBackup
